import Mathlib

/-!
Verification of the agent execution core of the backend
(`backend/app/services/agent.py` and the SSE wrapper in
`backend/app/api/chat.py`).

The Python source is shallowly embedded as executable Lean definitions:
strings stay `String`, JSON values become the inductive `Json`, the
database and the in-memory chat history become explicit lists threaded
through the loop, and the streamed LLM deltas become a script of chunks
consumed by a step function.  Presentation-only fields of emitted events
(timestamps and fixed human-readable `message` strings) are omitted;
every field any claim below depends on is kept.

Modelling conventions, stated once:
* Python `str` whitespace handling is modelled over the ASCII whitespace
  characters, which are the only ones the embedded code paths produce.
* `json.loads` / `json.dumps` are modelled by `jsonLoads` / `jsonDumps`
  with numbers restricted to integers (no float literal appears in any
  embedded code path or input considered here); `dumps` uses the
  CPython default separators and `ensure_ascii=False`, exactly as the
  source calls it.
* Binary image data and its base64 encoding are abstracted as the
  already-encoded base64 string stored with each file image.
-/

/-- Python `str` whitespace (ASCII part): the characters stripped by
`str.strip()` and friends. -/
def pyIsSpace (c : Char) : Bool :=
  c = ' ' || c = '\t' || c = '\n' || c = '\r' || c = '\x0b' || c = '\x0c'

/-- Python `str.strip()` on the model's character set. -/
def pyStrip (s : String) : String :=
  String.mk (((s.toList.dropWhile pyIsSpace).reverse.dropWhile pyIsSpace).reverse)

/-- Python `str.rstrip(",")`: drop every trailing comma. -/
def pyRstripComma (s : String) : String :=
  String.mk ((s.toList.reverse.dropWhile (· = ',')).reverse)

/-- Python `str.splitlines()` restricted to the `\n`, `\r\n` and `\r`
terminators (the embedded code only ever feeds it `\n`-terminated text). -/
def pySplitlinesAux : List Char → List Char → List String
  | [], acc => if acc.isEmpty then [] else [String.mk acc.reverse]
  | '\r' :: '\n' :: rest, acc => String.mk acc.reverse :: pySplitlinesAux rest []
  | '\n' :: rest, acc => String.mk acc.reverse :: pySplitlinesAux rest []
  | '\r' :: rest, acc => String.mk acc.reverse :: pySplitlinesAux rest []
  | c :: rest, acc => pySplitlinesAux rest (c :: acc)

/-- Python `str.splitlines()`. -/
def pySplitlines (s : String) : List String :=
  pySplitlinesAux s.toList []

/-- Python `str.startswith` (character-list based). -/
def pyStartsWithAux : List Char → List Char → Bool
  | _, [] => true
  | [], _ :: _ => false
  | c :: cs, p :: ps => c == p && pyStartsWithAux cs ps

/-- Python `s.startswith(pre)`. -/
def pyStartsWith (s pre : String) : Bool :=
  pyStartsWithAux s.toList pre.toList

/-- Python `s.endswith(suf)`. -/
def pyEndsWith (s suf : String) : Bool :=
  pyStartsWithAux s.toList.reverse suf.toList.reverse

/-- Python `s[n:]`. -/
def strDrop (s : String) (n : Nat) : String :=
  String.mk (s.toList.drop n)

/-- Python `s[:-1]`. -/
def strDropLast (s : String) : String :=
  String.mk s.toList.dropLast

/-- Truthiness of a Python optional string (`None` and `""` are falsy). -/
def pyTruthyStr : Option String → Bool
  | none => false
  | some s => s ≠ ""

/-- JSON values as produced by `json.loads` and consumed by `json.dumps`.
Object fields keep Python `dict` insertion order; numbers are modelled as
integers (see the module comment). -/
inductive Json where
  | null : Json
  | bool (b : Bool) : Json
  | num (n : Int) : Json
  | str (s : String) : Json
  | arr (elems : List Json) : Json
  | obj (fields : List (String × Json)) : Json

/-- Python truthiness of a JSON value (`None`, `False`, `0`, `""`, `[]`,
`\x7b\x7d` are falsy). -/
def pyTruthy : Json → Bool
  | .null => false
  | .bool b => b
  | .num n => n ≠ 0
  | .str s => s ≠ ""
  | .arr es => ¬ es.isEmpty
  | .obj fs => ¬ fs.isEmpty

/-- `dict.get`: the value of the first (and by construction only) field
with the given key. -/
def objGet (fields : List (String × Json)) (k : String) : Option Json :=
  match fields.find? (fun p => p.1 == k) with
  | some p => some p.2
  | none => none

/-- Removing one key from a dict, keeping the order of the rest (the
`\x7bk: v for k, v in d.items() if k != key\x7d` comprehension). -/
def objRemove (fields : List (String × Json)) (k : String) : List (String × Json) :=
  fields.filter (fun p => p.1 != k)

/-- `d[k] = v` on an ordered dict: replace in place when the key exists,
otherwise append. -/
def objSet (fields : List (String × Json)) (k : String) (v : Json) : List (String × Json) :=
  if fields.any (fun p => p.1 == k) then
    fields.map (fun p => if p.1 == k then (k, v) else p)
  else
    fields ++ [(k, v)]

/-- JSON string escaping as CPython's `json.dumps(…, ensure_ascii=False)`
performs it: quote, backslash and ASCII control characters are escaped,
everything else passes through. -/
def jsonEscapeChar (c : Char) : String :=
  if c = '"' then "\\\""
  else if c = '\\' then "\\\\"
  else if c = '\n' then "\\n"
  else if c = '\r' then "\\r"
  else if c = '\t' then "\\t"
  else if c = '\x08' then "\\b"
  else if c = '\x0c' then "\\f"
  else if c.toNat < 32 then
    "\\u00" ++ String.mk [Nat.digitChar (c.toNat / 16), Nat.digitChar (c.toNat % 16)]
  else
    String.singleton c

/-- Serialization of a JSON string literal. -/
def jsonDumpStr (s : String) : String :=
  "\"" ++ String.join (s.toList.map jsonEscapeChar) ++ "\""

mutual
/-- `json.dumps(v, ensure_ascii=False)` with CPython's default
`", "` / `": "` separators. -/
def jsonDumps : Json → String
  | .null => "null"
  | .bool true => "true"
  | .bool false => "false"
  | .num n => toString n
  | .str s => jsonDumpStr s
  | .arr es => "[" ++ jsonDumpsList es ++ "]"
  | .obj fs => "\x7b" ++ jsonDumpsFields fs ++ "\x7d"

/-- Comma-separated serialization of array elements. -/
def jsonDumpsList : List Json → String
  | [] => ""
  | [x] => jsonDumps x
  | x :: y :: rest => jsonDumps x ++ ", " ++ jsonDumpsList (y :: rest)

/-- Comma-separated serialization of object fields. -/
def jsonDumpsFields : List (String × Json) → String
  | [] => ""
  | [(k, v)] => jsonDumpStr k ++ ": " ++ jsonDumps v
  | (k, v) :: f :: rest => jsonDumpStr k ++ ": " ++ jsonDumps v ++ ", " ++ jsonDumpsFields (f :: rest)
end

/-- Whitespace accepted between JSON tokens by `json.loads`. -/
def jsonIsWs (c : Char) : Bool :=
  c = ' ' || c = '\t' || c = '\n' || c = '\r'

/-- Skip inter-token whitespace. -/
def skipWs (cs : List Char) : List Char :=
  cs.dropWhile jsonIsWs

/-- Value of one hexadecimal digit. -/
def hexDigitVal (c : Char) : Option Nat :=
  if c.isDigit then some (c.toNat - 48)
  else if 'a' ≤ c && c ≤ 'f' then some (c.toNat - 87)
  else if 'A' ≤ c && c ≤ 'F' then some (c.toNat - 55)
  else none

/-- Parse the body of a JSON string literal after the opening quote,
returning the decoded characters and the input after the closing quote.
Unescaped control characters are rejected (CPython strict mode); lone
surrogate pairs are not modelled (no embedded input contains them). -/
def parseStrBody : Nat → List Char → Option (List Char × List Char)
  | 0, _ => none
  | fuel + 1, cs =>
    match cs with
    | [] => none
    | '"' :: rest => some ([], rest)
    | '\\' :: e :: rest =>
      let cont : Char → List Char → Option (List Char × List Char) := fun c rest' =>
        match parseStrBody fuel rest' with
        | some (body, r) => some (c :: body, r)
        | none => none
      match e with
      | '"' => cont '"' rest
      | '\\' => cont '\\' rest
      | '/' => cont '/' rest
      | 'n' => cont '\n' rest
      | 't' => cont '\t' rest
      | 'r' => cont '\r' rest
      | 'b' => cont '\x08' rest
      | 'f' => cont '\x0c' rest
      | 'u' =>
        match rest with
        | h1 :: h2 :: h3 :: h4 :: rest' =>
          match hexDigitVal h1, hexDigitVal h2, hexDigitVal h3, hexDigitVal h4 with
          | some a, some b, some c, some d => cont (Char.ofNat (a * 4096 + b * 256 + c * 16 + d)) rest'
          | _, _, _, _ => none
        | _ => none
      | _ => none
    | c :: rest =>
      if c.toNat < 32 then none
      else
        match parseStrBody fuel rest with
        | some (body, r) => some (c :: body, r)
        | none => none

/-- Parse a JSON integer literal (optional minus, digits, no leading
zeros); float syntax is rejected, per the module-level model
restriction. -/
def parseNum (cs : List Char) : Option (Json × List Char) :=
  let negAndRest : Bool × List Char :=
    match cs with
    | '-' :: r => (true, r)
    | _ => (false, cs)
  let neg := negAndRest.1
  let cs1 := negAndRest.2
  let digits := cs1.takeWhile Char.isDigit
  let rest := cs1.dropWhile Char.isDigit
  if digits.isEmpty then none
  else if digits.length > 1 && digits.head? == some '0' then none
  else
    match rest with
    | '.' :: _ => none
    | 'e' :: _ => none
    | 'E' :: _ => none
    | _ =>
      let n : Nat := digits.foldl (fun a c => a * 10 + (c.toNat - 48)) 0
      some (.num (if neg then -(n : Int) else (n : Int)), rest)

mutual
/-- Recursive-descent JSON value parser (the heart of the `json.loads`
model); `fuel` strictly decreases on every call and is amply budgeted by
the caller `jsonLoads`. -/
def parseVal : Nat → List Char → Option (Json × List Char)
  | 0, _ => none
  | fuel + 1, cs =>
    match skipWs cs with
    | 'n' :: 'u' :: 'l' :: 'l' :: rest => some (.null, rest)
    | 't' :: 'r' :: 'u' :: 'e' :: rest => some (.bool true, rest)
    | 'f' :: 'a' :: 'l' :: 's' :: 'e' :: rest => some (.bool false, rest)
    | '"' :: rest =>
      match parseStrBody (rest.length + 1) rest with
      | some (body, r) => some (.str (String.mk body), r)
      | none => none
    | '[' :: rest =>
      match skipWs rest with
      | ']' :: rest' => some (.arr [], rest')
      | _ => parseArrItems fuel rest []
    | '{' :: rest =>
      match skipWs rest with
      | '}' :: rest' => some (.obj [], rest')
      | _ => parseObjItems fuel rest []
    | other => parseNum other

/-- Parse the comma-separated elements of a non-empty JSON array. -/
def parseArrItems : Nat → List Char → List Json → Option (Json × List Char)
  | 0, _, _ => none
  | fuel + 1, cs, acc =>
    match parseVal fuel cs with
    | none => none
    | some (v, rest) =>
      match skipWs rest with
      | ',' :: rest' => parseArrItems fuel rest' (acc ++ [v])
      | ']' :: rest' => some (.arr (acc ++ [v]), rest')
      | _ => none

/-- Parse the comma-separated members of a non-empty JSON object;
duplicate keys are resolved last-wins as CPython's dict building does. -/
def parseObjItems : Nat → List Char → List (String × Json) → Option (Json × List Char)
  | 0, _, _ => none
  | fuel + 1, cs, acc =>
    match skipWs cs with
    | '"' :: rest =>
      match parseStrBody (rest.length + 1) rest with
      | none => none
      | some (keyChars, rest1) =>
        match skipWs rest1 with
        | ':' :: rest2 =>
          match parseVal fuel rest2 with
          | none => none
          | some (v, rest3) =>
            let acc' := objSet acc (String.mk keyChars) v
            match skipWs rest3 with
            | ',' :: rest4 => parseObjItems fuel rest4 acc'
            | '}' :: rest4 => some (.obj acc', rest4)
            | _ => none
        | _ => none
    | _ => none
end

/-- Model of `json.loads`: parse one JSON document and require that only
whitespace follows it; any violation is the `json.JSONDecodeError` case,
returned as `none`. -/
def jsonLoads (s : String) : Option Json :=
  let cs := s.toList
  match parseVal (2 * cs.length + 4) cs with
  | some (v, rest) => if (skipWs rest).isEmpty then some v else none
  | none => none

/-- A structured tool call: a `tool_calls_buffer` entry or a history
`tool_calls` record.  The constant `"type": "function"` member of the
Python dict is implicit. -/
structure ToolCall where
  id : String
  name : String
  arguments : String
deriving DecidableEq

/-- A tool call normalized out of raw text by the sniffer.  `name` and
`id` keep whatever JSON value the model put there (the source does not
force them to strings); `arguments` is always a string. -/
structure NormCall where
  id : Json
  name : Json
  arguments : String

/-- The `argument_hints` table of `parse_textual_tool_calls`, in dict
insertion order. -/
def argument_hints : List (String × List String) :=
  [("reasoning", ["thinking_focus", "specific_question"]),
   ("ddgs_search", ["query"]),
   ("ai_search_web", ["query"]),
   ("get_current_time", ["timezone"]),
   ("playwright_browse", ["url"])]

/-- `infer_tool_name`: first hinted tool whose required argument keys all
occur in the payload, with the `ddgs_search` special case accepting
either `query` or `queries`. -/
def infer_tool_name (payload : List (String × Json)) : Option String :=
  let payload_keys := payload.map Prod.fst
  (argument_hints.find? (fun h =>
    (h.1 == "ddgs_search" && (payload_keys.contains "query" || payload_keys.contains "queries"))
      || h.2.all (fun k => payload_keys.contains k))).map Prod.fst

/-- `load_candidate` inside `try_parse`: a decode failure yields `None`,
and so does a successful decode of the literal `null` (the source tests
`is not None` on the decoded value, conflating the two). -/
def load_candidate (candidate : String) : Option Json :=
  match jsonLoads candidate with
  | some .null => none
  | r => r

/-- The wrapper-stripping loop of `try_parse`: try each `(open, close)`
pair in order, returning the first successful inner decode (`Sum.inl`)
or the final mutated candidate string (`Sum.inr`). -/
def tryParseWrappers : List (Char × Char) → String → Sum Json String
  | [], s => .inr s
  | (o, c) :: rest, s =>
    if pyStartsWith s (String.singleton o) && pyEndsWith s (String.singleton c) then
      let inner := String.mk ((s.toList.drop 1).dropLast)
      match load_candidate inner with
      | some v => .inl v
      | none => tryParseWrappers rest (pyStrip inner)
    else
      tryParseWrappers rest s

/-- `try_parse`: decode a candidate segment, tolerating quote/paren
wrappers and one junk character at either end. -/
def try_parse (segment : String) : Option Json :=
  let s0 := pyStrip segment
  if s0 == "" then none
  else
    match load_candidate s0 with
    | some v => some v
    | none =>
      match tryParseWrappers [('"', '"'), ('\'', '\''), ('(', ')')] s0 with
      | .inl v => some v
      | .inr s1 =>
        let headTrim : Option Json :=
          match s1.toList with
          | c :: _ =>
            if c ≠ '{' && c ≠ '[' then load_candidate (strDrop s1 1) else none
          | [] => none
        match headTrim with
        | some v => some v
        | none =>
          match s1.toList.getLast? with
          | some c =>
            if c ≠ '}' && c ≠ ']' then load_candidate (strDropLast s1) else none
          | none => none

/-- Python `a or b`: first operand when truthy, otherwise the second. -/
def pyOr (a b : Json) : Json :=
  if pyTruthy a then a else b

/-- Normalization of one decoded object into a tool call (`for obj in
parsed_objects` body of `parse_textual_tool_calls`): non-dicts are
dropped, the name is read from `name`/`tool_name`/`function` or inferred
from the argument shape, and the arguments are re-serialized unless
already a string. -/
def normalizeCall (obj : Json) : Option NormCall :=
  match obj with
  | .obj fields =>
    let getJ : String → Json := fun k => (objGet fields k).getD .null
    let name0 := pyOr (getJ "name") (pyOr (getJ "tool_name") (getJ "function"))
    let raw_arguments : Json :=
      match ["arguments", "args", "input", "parameters", "payload"].find?
          (fun k => (objGet fields k).isSome) with
      | some k => getJ k
      | none =>
        let candidates := fields.filter
          (fun p => !(["id", "type", "name", "tool_name", "function"].contains p.1))
        if candidates.isEmpty then .obj fields else .obj candidates
    let name1 :=
      if pyTruthy name0 then name0
      else
        match raw_arguments with
        | .obj payload =>
          match infer_tool_name payload with
          | some s => .str s
          | none => name0
        | _ => name0
    if pyTruthy name1 then
      let args_str :=
        match raw_arguments with
        | .str s => s
        | v => jsonDumps v
      some ⟨(objGet fields "id").getD (.str ""), name1, args_str⟩
    else
      none
  | _ => none

/-- Model of `parse_textual_tool_calls` (`run_agent_loop` local):
recognize tool-call intent emitted as raw JSON in the content stream. -/
def parse_textual_tool_calls (text : String) : List NormCall :=
  let stripped := pyStrip text
  if stripped == "" then []
  else
    let parsed_objects : List Json :=
      match try_parse stripped with
      | some (.arr elems) => elems
      | some v => [v]
      | none =>
        let segments := (pySplitlines stripped).filterMap (fun line =>
          if pyStrip line == "" then none else some (pyRstripComma (pyStrip line)))
        segments.filterMap try_parse
    parsed_objects.filterMap normalizeCall

/-- Does the stripped pending buffer look like an in-progress JSON
value (`startswith(("\x7b", "["))`)? -/
def startsBraceOrBracket (s : String) : Bool :=
  match s.toList with
  | '{' :: _ => true
  | '[' :: _ => true
  | _ => false

/-- Result of draining the pending text buffer: segments to emit,
textual tool calls detected, and the leftover pending text. -/
structure CollectResult where
  segments : List String
  calls : List NormCall
  pending : String

/-- One step of the drain policy: the chunk up to and including a
newline when one is pending; otherwise the whole buffer, immediately
when final or when it does not look like in-progress JSON; otherwise
nothing (`break`). -/
def nextSegment (final : Bool) (pending : String) : Option (String × String) :=
  match pending.toList.findIdx? (fun c => c == '\n') with
  | some i => some (String.mk (pending.toList.take (i + 1)), String.mk (pending.toList.drop (i + 1)))
  | none =>
    if final || !startsBraceOrBracket (pyStrip pending) then some (pending, "")
    else none

/-- Fuel-indexed drain loop of `collect_output_segments`; one unit of
fuel per removed chunk of pending text, amply budgeted by the caller. -/
def collectSegmentsAux (final : Bool) : Nat → String → CollectResult
  | 0, pending => ⟨[], [], pending⟩
  | fuel + 1, pending =>
    if pending == "" then ⟨[], [], ""⟩
    else
      match nextSegment final pending with
      | none => ⟨[], [], pending⟩
      | some (seg, rest) =>
        let parsed := parse_textual_tool_calls seg
        let r := collectSegmentsAux final fuel rest
        if parsed.isEmpty then ⟨seg :: r.segments, r.calls, r.pending⟩
        else ⟨r.segments, parsed ++ r.calls, r.pending⟩

/-- Model of `collect_output_segments` (`run_agent_loop` local).  The
guard-state parameter is unused in the source as well. -/
def collect_output_segments (_guardState : Bool) (final : Bool) (pending : String) : CollectResult :=
  collectSegmentsAux final (pending.length + 1) pending

/-- Model of `build_tool_message_content` (`agent.py`): convert a tool
result into chat-history content.  Python values are represented as
`Json`; a Python `str` return is `Json.str`, a list return is
`Json.arr`. -/
def build_tool_message_content (tool_payload : Json) : Json :=
  match tool_payload with
  | .obj fields =>
    let image_blocks := objGet fields "image_blocks"
    let sanitized := objRemove fields "image_blocks"
    let text_fragment := jsonDumps (.obj sanitized)
    match image_blocks with
    | some (.arr blocks) =>
      if blocks.isEmpty then .str text_fragment
      else
        .arr ((.obj [("type", .str "text"), ("text", .str text_fragment)]) ::
          blocks.filter (fun b => match b with | .obj _ => true | _ => false))
    | _ => .str text_fragment
  | .str s => .str s
  | .null => .str ""
  | other => .str (jsonDumps other)


/-- Events of the SSE stream.  The `timestamp` field and fixed
human-readable `message` strings are presentation-only and omitted;
every field a claim depends on is kept. -/
inductive Event where
  | status (s : String)
  | thinking
  | contentStart (guarded : Bool)
  | contentDelta (delta : String) (guarded : Bool)
  | contentDone (guarded : Bool)
  | toolCallEv (tool_call_id : String) (tool_name : String) (tool_input : Json)
  | toolExecuting (tool_call_id : String) (tool_name : String)
  | toolResultEv (tool_call_id : String) (tool_name : String) (tool_output : Json) (success : Bool)
  | iterationInfo (current_iteration : Nat) (max_iterations : Nat)
  | retry (reason : String) (retry_count : Nat) (max_retries : Nat)
  | error (error_code : String) (error_message : String)
  | done (message_id : Nat) (session_id : Int) (total_iterations : Nat)

/-- The configuration values `run_agent_loop` reads from the global
`config` object (loaded from TOML at startup; `config.toml` defaults:
`MAX_ITERATIONS = 50`, `MAX_RETRY_ON_MULTIPLE_TOOLS = 3`). -/
structure Config where
  MAX_ITERATIONS : Nat
  MAX_RETRY_ON_MULTIPLE_TOOLS : Nat
  SYSTEM_PROMPT : String
  MULTIPLE_TOOLS_WARNING : String
  SELF_CHECK_FINAL_RESPONSE_PROMPT : String

/-- A `File` row as read by `build_tool_file_message_content`. -/
structure FileRec where
  id : Int
  filename : String

/-- A `FileImage` row; the binary `image_data` and its base64 encoding
are abstracted as the encoded string (module comment). -/
structure FileImageRec where
  fileId : Int
  pageNumber : Int
  imageB64 : String

/-- The environment of one run: configuration, the read-only file store
and the run parameters `session_id` / `model_id`. -/
structure Env where
  cfg : Config
  files : List FileRec
  fileImages : List FileImageRec
  sessionId : Int
  modelId : String

/-- A persisted `Message` row.  `id` models the server-assigned primary
key (position in the write order). -/
structure DbMsg where
  id : Nat
  session_id : Int
  role : String
  sequence : Nat
  content : Option String := none
  tool_call_id : Option String := none
  tool_name : Option String := none
  tool_input : Option String := none
  tool_output : Option String := none
  model_id : Option String := none
deriving DecidableEq

/-- The `content` value of an in-memory history dict: absent, a plain
string, or a structured value. -/
inductive HistContent where
  | none
  | str (s : String)
  | json (j : Json)

/-- One entry of the in-memory `history` list. -/
structure HistMsg where
  role : String
  content : HistContent
  tool_call_id : Option String
  tool_calls : List ToolCall

/-- A system message appended to the history. -/
def sysMsg (s : String) : HistMsg :=
  ⟨"system", .str s, Option.none, []⟩

/-- Equality test of a history entry's `content` against a plain string
(`history[-1].get("content") != reminder`): in Python both a `str`
content and nothing else can compare equal to the reminder string. -/
def histContentEqStr : HistContent → String → Bool
  | .str s, r => s == r
  | .json (.str s), r => s == r
  | _, _ => false

/-- Behaviour of one `execute_tool` invocation, scripted: the returned
Python value (as `Json`) or a raised exception's message. -/
inductive ToolOutcome where
  | returns (v : Json)
  | raises (msg : String)

/-- The mutable per-turn state of `run_agent_loop`, with the persisted
store (`db`), the scripted tool outcomes and the in-memory history
threaded through explicitly. -/
structure LoopState where
  iteration : Nat
  retry_count : Nat
  ready_to_reply_guard : Bool
  last_stream_guard_state : Option Bool
  progress_segments : List String
  progress_buffer : String
  self_check_reminder_inserted : Bool
  force_reasoning_next : Bool
  pending_text_output : String
  textual_calls_detected : List NormCall
  history : List HistMsg
  current_sequence : Nat
  db : List DbMsg
  toolQueue : List ToolOutcome

/-- The fixed ready-to-reply reminder text of `run_agent_loop`. -/
def ready_to_reply_reminder : String :=
  "During your most recent reasoning tool call, you set `ready_to_reply` to false, which means you do not yet have enough information for a final answer. Continue executing your plan, calling tools, or refining the plan instead of replying. If you believe the conversation is ready for a final response, call the reasoning tool again to review the evidence and set `ready_to_reply` to true; otherwise, keep executing the next step."

/-- Reminder appended on a textual-tool-call retry. -/
def textual_tool_call_reminder : String :=
  "You did not invoke the tool via the structured tool-call channel. Please regenerate your response using the proper tool call format, and do not output JSON directly in the text. Only one tool call is allowed per turn."

/-- Reminder appended on an empty-content retry. -/
def empty_content_reminder : String :=
  "Your previous response contained no usable text. Please provide a natural-language answer or call an appropriate tool."

/-- Reminder appended on an empty-finish-reason retry. -/
def empty_finish_reminder : String :=
  "Your previous response contained no valid text or tool call. Please call an appropriate tool or produce a natural-language answer."

/-- `flush_progress_buffer` (`run_agent_loop` local): commit the
stripped in-flight guarded text into `progress_segments`. -/
def flush_progress_buffer (st : LoopState) : LoopState :=
  let stripped := pyStrip st.progress_buffer
  { st with
    progress_segments :=
      if stripped == "" then st.progress_segments else st.progress_segments ++ [stripped],
    progress_buffer := "" }

/-- Does the history tail already carry the given reminder text? -/
def historyTailIsReminder (hist : List HistMsg) (reminder : String) : Bool :=
  match hist.getLast? with
  | some m => histContentEqStr m.content reminder
  | Option.none => false

/-- Append the ready-to-reply reminder unless it is already the tail of
history (`if not history or history[-1].get("content") != reminder`). -/
def appendReminderIfNeeded (hist : List HistMsg) : List HistMsg :=
  if historyTailIsReminder hist ready_to_reply_reminder then hist
  else hist ++ [sysMsg ready_to_reply_reminder]

/-- Model of `save_user_message_to_db`: append the user row, returning
its primary key. -/
def save_user_message_to_db (session_id : Int) (content : List Json) (sequence : Nat)
    (db : List DbMsg) : Nat × List DbMsg :=
  let id := db.length + 1
  (id, db ++ [{ id := id, session_id := session_id, role := "user",
                content := some (jsonDumps (.arr content)), sequence := sequence }])

/-- Model of `save_assistant_structured_message_to_db`: append an
assistant row whose content is a JSON-encoded block list. -/
def save_assistant_structured_message_to_db (session_id : Int) (content : List Json)
    (sequence : Nat) (tool_call_id : Option String) (tool_name : Option String)
    (db : List DbMsg) : Nat × List DbMsg :=
  let id := db.length + 1
  (id, db ++ [{ id := id, session_id := session_id, role := "assistant",
                content := some (jsonDumps (.arr content)), sequence := sequence,
                tool_call_id := tool_call_id, tool_name := tool_name }])

/-- Model of `save_assistant_message_to_db`: append the final assistant
row with the `assistant_final` JSON payload. -/
def save_assistant_message_to_db (session_id : Int) (content : String) (sequence : Nat)
    (model_id : String) (progress_segments : List String) (db : List DbMsg) : Nat × List DbMsg :=
  let payload : Json := .obj
    [("type", .str "assistant_final"),
     ("final", .str content),
     ("progress", .arr (progress_segments.map .str))]
  let id := db.length + 1
  (id, db ++ [{ id := id, session_id := session_id, role := "assistant",
                content := some (jsonDumps payload), sequence := sequence,
                model_id := some model_id }])

/-- Model of `save_tool_call_to_db`: append the assistant tool-call row
at `sequence` and the tool row at `sequence + 1`, both carrying the same
`tool_call_id`. -/
def save_tool_call_to_db (session_id : Int) (tool_call_id : String) (tool_name : String)
    (tool_input : Json) (tool_output : Json) (sequence : Nat)
    (db : List DbMsg) : (Nat × Nat) × List DbMsg :=
  let assistant_msg : DbMsg :=
    { id := db.length + 1, session_id := session_id, role := "assistant",
      tool_call_id := some tool_call_id, tool_name := some tool_name,
      tool_input := some (jsonDumps tool_input), sequence := sequence }
  let tool_msg : DbMsg :=
    { id := db.length + 2, session_id := session_id, role := "tool",
      tool_call_id := some tool_call_id,
      tool_output := some (jsonDumps tool_output), sequence := sequence + 1 }
  ((assistant_msg.id, tool_msg.id), db ++ [assistant_msg, tool_msg])

/-- The artifact pseudo tool name (`agent.py` module constant). -/
def ASSISTANT_ARTIFACT_TOOL_NAME : String := "__assistant_artifact__"

/-- Ascending insertion by page number (the `ORDER BY page_number` of
the `FileImage` query). -/
def insertByPage (img : FileImageRec) : List FileImageRec → List FileImageRec
  | [] => [img]
  | x :: xs => if img.pageNumber < x.pageNumber then img :: x :: xs else x :: insertByPage img xs

/-- Page-ordered images of one file. -/
def imagesForFile (env : Env) (file_id : Int) : List FileImageRec :=
  (env.fileImages.filter (fun i => i.fileId == file_id)).foldr insertByPage []

/-- Python `str()` of a `Json` value, for the artifact note; container
reprs are abstracted as their JSON dump (no embedded input uses them). -/
def pyStr : Json → String
  | .str s => s
  | .num n => toString n
  | .bool true => "True"
  | .bool false => "False"
  | .null => "None"
  | v => jsonDumps v

/-- Model of `build_tool_file_message_content`: header text block plus,
for each rendered page, a caption text block and an image block; `none`
when the file or all of its images are missing. -/
def build_tool_file_message_content (env : Env) (file_id : Int) (header_text : String) :
    Option (List Json) :=
  match env.files.find? (fun f => f.id == file_id) with
  | Option.none => Option.none
  | some file =>
    let file_images := imagesForFile env file_id
    if file_images.isEmpty then Option.none
    else some (
      (.obj [("type", .str "text"), ("text", .str header_text)]) ::
      file_images.flatMap (fun img =>
        [.obj [("type", .str "text"),
               ("text", .str ("[File: " ++ file.filename ++ ", Page " ++ toString img.pageNumber ++ "]"))],
         .obj [("type", .str "image_url"),
               ("image_url", .obj
                 [("url", .str ("data:image/webp;base64," ++ img.imageB64)),
                  ("detail", .str "high")])]]))

/-- One streamed tool-call fragment (`delta.tool_calls[i]`). -/
structure FunctionFrag where
  name : Option String
  arguments : Option String

/-- An indexed tool-call delta. -/
structure ToolCallFrag where
  index : Nat
  id : Option String
  function : Option FunctionFrag

/-- One streamed chunk (a `chunk.choices[0].delta` with its optional
`finish_reason`), processed content first, tool-call fragments second,
finish reason last, exactly as the source loop does. -/
structure Chunk where
  content : Option String
  tool_calls : List ToolCallFrag
  finish_reason : Option String

/-- Accumulate one tool-call fragment into `tool_calls_buffer`: at most
one empty slot is appended per fragment, then each carried field indexes
the buffer; an out-of-range index raises `IndexError` (message as
CPython prints it). -/
def accumToolCallFrag (buf : List ToolCall) (tc : ToolCallFrag) : Except String (List ToolCall) :=
  let buf1 := if buf.length ≤ tc.index then buf ++ [⟨"", "", ""⟩] else buf
  let setAt : List ToolCall → (ToolCall → ToolCall) → Except String (List ToolCall) :=
    fun l f =>
      if h : tc.index < l.length then .ok (l.set tc.index (f (l.get ⟨tc.index, h⟩)))
      else .error "list index out of range"
  let step1 : Except String (List ToolCall) :=
    if pyTruthyStr tc.id then setAt buf1 (fun c => { c with id := tc.id.getD "" })
    else .ok buf1
  match step1 with
  | .error msg => .error msg
  | .ok buf2 =>
    match tc.function with
    | Option.none => .ok buf2
    | some f =>
      let step2 : Except String (List ToolCall) :=
        if pyTruthyStr f.name then setAt buf2 (fun c => { c with name := f.name.getD "" })
        else .ok buf2
      match step2 with
      | .error msg => .error msg
      | .ok buf3 =>
        if pyTruthyStr f.arguments then
          setAt buf3 (fun c => { c with arguments := c.arguments ++ f.arguments.getD "" })
        else .ok buf3

/-- Streaming-phase state: the loop state plus the per-round
accumulators (`full_content`, `tool_calls_buffer`, `finish_reason`). -/
structure StreamSt where
  loop : LoopState
  full_content : String
  buffer : List ToolCall
  finish_reason : Option String

/-- Emit drained segments: a `content_start` on each guard-class flip,
routing to `full_content` (unguarded) or `progress_buffer` (guarded),
and one `content_delta` per segment. -/
def emitSegments (guard : Bool) : List String → Option Bool → String → String →
    List Event × Option Bool × String × String
  | [], lastGuard, full_content, progress_buffer => ([], lastGuard, full_content, progress_buffer)
  | seg :: rest, lastGuard, full_content, progress_buffer =>
    let startEvs : List Event :=
      if lastGuard == some guard then [] else [Event.contentStart guard]
    let fc := if guard then full_content else full_content ++ seg
    let pb := if guard then progress_buffer ++ seg else progress_buffer
    let r := emitSegments guard rest (some guard) fc pb
    (startEvs ++ Event.contentDelta seg guard :: r.1, r.2)

/-- Drain the pending text buffer through the sniffer and emit the
resulting segments (shared by the per-chunk path and the final drain). -/
def drainPending (ss : StreamSt) (final : Bool) : List Event × StreamSt :=
  let st := ss.loop
  let g := st.ready_to_reply_guard
  let col := collect_output_segments g final st.pending_text_output
  let r := emitSegments g col.segments st.last_stream_guard_state ss.full_content st.progress_buffer
  (r.1,
   { ss with
     loop := { st with
       pending_text_output := col.pending,
       textual_calls_detected := st.textual_calls_detected ++ col.calls,
       last_stream_guard_state := r.2.1,
       progress_buffer := r.2.2.2 },
     full_content := r.2.2.1 })

/-- The content part of one chunk: append a truthy delta to the pending
buffer and drain it through the sniffer. -/
def processContent (ss : StreamSt) (content : Option String) : List Event × StreamSt :=
  match content with
  | some s =>
    if s == "" then ([], ss)
    else
      let st := ss.loop
      drainPending { ss with loop := { st with pending_text_output := st.pending_text_output ++ s } } false
  | Option.none => ([], ss)

/-- Consume one streamed chunk: content deltas, tool-call fragments
(which may raise `IndexError`), then the finish reason. -/
def processChunk (ss : StreamSt) (c : Chunk) : List Event × Except String StreamSt :=
  let contentStep := processContent ss c.content
  let ss1 := contentStep.2
  let bufRes := c.tool_calls.foldl
    (fun (acc : Except String (List ToolCall)) tc => acc.bind (fun b => accumToolCallFrag b tc))
    (.ok ss1.buffer)
  (contentStep.1,
    match bufRes with
    | .error msg => .error msg
    | .ok buf' =>
      let fr :=
        match c.finish_reason with
        | some r => if r == "" then ss1.finish_reason else some r
        | Option.none => ss1.finish_reason
      .ok { ss1 with buffer := buf', finish_reason := fr })

/-- Consume the whole streamed round, stopping at the first raised
exception (already-yielded events are kept). -/
def processChunks (ss : StreamSt) : List Chunk → List Event × Except String StreamSt
  | [] => ([], .ok ss)
  | c :: rest =>
    match processChunk ss c with
    | (evs, .error msg) => (evs, .error msg)
    | (evs, .ok ss') =>
      let r := processChunks ss' rest
      (evs ++ r.1, r.2)

/-- The missing-finish-reason coercion: with buffered unguarded text and
no tool calls, treat the round as `stop`. -/
def coerceFinish (ss : StreamSt) : StreamSt :=
  if ss.finish_reason.isNone && ss.buffer.isEmpty && pyStrip ss.full_content != "" then
    { ss with finish_reason := some "stop" }
  else ss

/-- Result of one pass of the `while` loop: continue, break (final
answer accepted), a raised exception, or an exhausted tool-outcome
script (a modelling artifact, not a code path). -/
inductive PassResult where
  | cont (st : LoopState)
  | brk (st : LoopState)
  | raised (st : LoopState) (msg : String)
  | noScript (st : LoopState)

/-- The `try/except` around `execute_tool` plus the success-flag
computation: an exception becomes `\x7bsuccess: false, error: msg\x7d`; a dict
with an explicit `success` key is judged by its truthiness; everything
else is a success. -/
def runToolOutcome (outcome : ToolOutcome) : Json × Bool :=
  match outcome with
  | .raises msg => (.obj [("success", .bool false), ("error", .str msg)], false)
  | .returns v =>
    match v with
    | .obj fields =>
      match objGet fields "success" with
      | some sv => (v, pyTruthy sv)
      | Option.none => (v, true)
    | _ => (v, true)

/-- The artifact-hoist probe: when the tool result is a dict with an
integer `file_id`, build the assistant artifact content from the file
store (header plus rendered pages). -/
def artifactFor (env : Env) (tool_result : Json) : Option (List Json) :=
  match tool_result with
  | .obj fields =>
    match objGet fields "file_id" with
    | some (.num fid) =>
      let note_text := pyStr (pyOr ((objGet fields "note").getD .null) (.str "Downloaded file"))
      let parts := ["file_id=" ++ toString fid] ++
        (match objGet fields "page_count" with
         | some (.num n) => if 0 < n then ["pages=" ++ toString n] else []
         | _ => [])
      let header := "(tool) " ++ note_text ++ " (" ++ String.intercalate ", " parts ++ ")"
      build_tool_file_message_content env fid header
    | _ => Option.none
  | _ => Option.none

/-- The single-tool-call arm of the `tool_calls` branch: emit
`iteration_info` / `tool_call` / `tool_executing` / `tool_result`,
execute the tool, persist the call/result pair, extend the history,
hoist any returned file artifact, run the reasoning hook, and reset the
retry counter and the forced-reasoning flag. -/
def execSingleToolCall (env : Env) (ss : StreamSt) (tc : ToolCall) : List Event × PassResult :=
  let st := ss.loop
  let iteration' := st.iteration + 1
  let evIter := Event.iterationInfo iteration' env.cfg.MAX_ITERATIONS
  let tool_call_id := tc.id
  let tool_name :=
    if pyStartsWith tc.name "functions." then strDrop tc.name "functions.".length else tc.name
  let tcStored : ToolCall := { tc with name := tool_name }
  let tool_input :=
    match jsonLoads tc.arguments with
    | some j => j
    | Option.none => .obj [("raw", .str tc.arguments)]
  let evCall := Event.toolCallEv tool_call_id tool_name tool_input
  let evExec := Event.toolExecuting tool_call_id tool_name
  match st.toolQueue with
  | [] => ([evIter, evCall, evExec], .noScript st)
  | outcome :: queue' =>
    let run := runToolOutcome outcome
    let tool_result := run.1
    let tool_success := run.2
    let evResult := Event.toolResultEv tool_call_id tool_name tool_result tool_success
    let saved := save_tool_call_to_db env.sessionId tool_call_id tool_name tool_input
      tool_result st.current_sequence st.db
    let db1 := saved.2
    let seq1 := st.current_sequence + 2
    let hist1 := st.history ++
      [⟨"assistant", .none, Option.none, [tcStored]⟩,
       ⟨"tool", .json (build_tool_message_content tool_result), some tool_call_id, []⟩]
    let artifact := artifactFor env tool_result
    let dbSeq : List DbMsg × Nat :=
      match artifact with
      | some content =>
        ((save_assistant_structured_message_to_db env.sessionId content seq1
            (some tool_call_id) (some ASSISTANT_ARTIFACT_TOOL_NAME) db1).2, seq1 + 1)
      | Option.none => (db1, seq1)
    let hist2 :=
      match artifact with
      | some content => hist1 ++ [⟨"assistant", .json (.arr content), Option.none, []⟩]
      | Option.none => hist1
    let ready_flag : Option Json :=
      if tool_name == "reasoning" then
        match tool_result with
        | .obj fields => objGet fields "ready_to_reply"
        | _ => Option.none
      else Option.none
    let selfCheckFire :=
      (match ready_flag with
       | some v => pyTruthy v
       | Option.none => false)
      && !st.self_check_reminder_inserted
      && env.cfg.SELF_CHECK_FINAL_RESPONSE_PROMPT != ""
    let hist3 :=
      if selfCheckFire then hist2 ++ [sysMsg env.cfg.SELF_CHECK_FINAL_RESPONSE_PROMPT] else hist2
    let stBase : LoopState :=
      { st with
        iteration := iteration',
        toolQueue := queue',
        history := hist3,
        self_check_reminder_inserted := st.self_check_reminder_inserted || selfCheckFire,
        retry_count := 0,
        force_reasoning_next := false }
    let stHook :=
      match ready_flag with
      | some (.bool false) =>
        { stBase with
          ready_to_reply_guard := true,
          last_stream_guard_state := Option.none,
          history := appendReminderIfNeeded stBase.history }
      | some (.bool true) =>
        { flush_progress_buffer stBase with
          ready_to_reply_guard := false,
          last_stream_guard_state := Option.none }
      | _ => stBase
    ([evIter, evCall, evExec, evResult],
     .cont { stHook with current_sequence := dbSeq.2, db := dbSeq.1 })

/-- The `stop` branch: textual-tool-call retry, empty-content retry,
guarded continue, or final-answer persistence. -/
def dispatchStop (env : Env) (ss : StreamSt) : List Event × PassResult :=
  let st := ss.loop
  let maxRetry := env.cfg.MAX_RETRY_ON_MULTIPLE_TOOLS
  if !st.textual_calls_detected.isEmpty then
    let rc := st.retry_count + 1
    if rc > maxRetry then
      ([Event.error "TEXTUAL_TOOL_CALL_MAX_RETRIES"
          "Model repeatedly emitted raw JSON tool calls without using the structured tool-call channel."],
       .raised { st with retry_count := rc } "Model emitted raw JSON tool calls after max retries")
    else
      ([Event.retry "textual_tool_call" rc maxRetry],
       .cont
         { st with
           retry_count := rc,
           history := st.history ++ [sysMsg textual_tool_call_reminder],
           textual_calls_detected := [],
           force_reasoning_next := true })
  else if pyStrip ss.full_content == "" then
    let rc := st.retry_count + 1
    if rc > maxRetry then
      ([Event.error "EMPTY_RESPONSE_MAX_RETRIES"
          "Model produced no usable content after multiple retries."],
       .raised { st with retry_count := rc } "Empty response after retries")
    else
      ([Event.retry "empty_content" rc maxRetry],
       .cont
         { st with
           retry_count := rc,
           history := st.history ++ [sysMsg empty_content_reminder],
           force_reasoning_next := true })
  else if st.ready_to_reply_guard then
    let stF := flush_progress_buffer st
    ([Event.status "awaiting_more_actions"],
     .cont
       { stF with
         last_stream_guard_state := Option.none,
         history := appendReminderIfNeeded stF.history })
  else
    let stF := flush_progress_buffer st
    let saved := save_assistant_message_to_db env.sessionId ss.full_content stF.current_sequence
      env.modelId stF.progress_segments stF.db
    ([Event.contentDone false, Event.done saved.1 env.sessionId st.iteration],
     .brk { stF with db := saved.2, force_reasoning_next := false })

/-- The fall-through branch for any other finish reason: one retrying
sub-case (a `None` finish with neither content nor tool calls) and the
immediately-fatal `UNEXPECTED_FINISH_REASON` case. -/
def dispatchOtherFinish (env : Env) (ss : StreamSt) : List Event × PassResult :=
  let st := ss.loop
  let maxRetry := env.cfg.MAX_RETRY_ON_MULTIPLE_TOOLS
  if ss.finish_reason.isNone && ss.full_content == "" && ss.buffer.isEmpty then
    let rc := st.retry_count + 1
    if rc > maxRetry then
      ([Event.error "UNEXPECTED_FINISH_REASON"
          "Model produced no content or tool call after multiple retries."],
       .raised { st with retry_count := rc } "finish_reason None after retries")
    else
      ([Event.retry "empty_finish_reason" rc maxRetry],
       .cont
         { st with
           retry_count := rc,
           history := st.history ++ [sysMsg empty_finish_reminder] })
  else
    let frText :=
      match ss.finish_reason with
      | some s => s
      | Option.none => "None"
    ([Event.error "UNEXPECTED_FINISH_REASON" ("Unexpected finish_reason: " ++ frText)],
     .raised st ("Unexpected finish_reason: " ++ frText))

/-- The post-stream dispatch on the (already coerced) finish reason. -/
def dispatchRound (env : Env) (ss : StreamSt) : List Event × PassResult :=
  let st := ss.loop
  if ss.finish_reason == some "tool_calls" && !ss.buffer.isEmpty then
    match ss.buffer with
    | [] => ([], .cont st)
    | tc :: rest =>
      if rest.isEmpty then execSingleToolCall env ss tc
      else if st.retry_count ≥ env.cfg.MAX_RETRY_ON_MULTIPLE_TOOLS then
        ([Event.error "MULTIPLE_TOOLS_MAX_RETRIES"
            ("Model kept invoking multiple tools after " ++
              toString env.cfg.MAX_RETRY_ON_MULTIPLE_TOOLS ++ " retries")],
         .raised st "Model called multiple tools after max retries")
      else
        let rc := st.retry_count + 1
        ([Event.retry "multiple_tools_called" rc env.cfg.MAX_RETRY_ON_MULTIPLE_TOOLS],
         .cont
           { st with
             retry_count := rc,
             history := st.history ++ [sysMsg env.cfg.MULTIPLE_TOOLS_WARNING] })
  else if ss.finish_reason == some "stop" then
    dispatchStop env ss
  else
    dispatchOtherFinish env ss

/-- The streaming phase of one pass: reset `textual_calls_detected`,
consume the scripted round, final-drain the sniffer and coerce the
finish reason. -/
def streamRound (st : LoopState) (round : List Chunk) : List Event × Except String StreamSt :=
  match processChunks
      { loop := { st with textual_calls_detected := [] },
        full_content := "", buffer := [], finish_reason := Option.none } round with
  | (evs, .error msg) => (evs, .error msg)
  | (evs, .ok ss1) =>
    let drained := drainPending ss1 true
    (evs ++ drained.1, .ok (coerceFinish drained.2))

/-- One pass of the `while iteration < MAX_ITERATIONS` body: emit
`thinking`, run the streaming phase (the forced `tool_choice` of a
pending `force_reasoning_next` only shapes the external LLM's output,
which the script already fixes), and dispatch. -/
def runPass (env : Env) (st : LoopState) (round : List Chunk) : List Event × PassResult :=
  match streamRound st round with
  | (evs, .error msg) => (Event.thinking :: evs, .raised { st with textual_calls_detected := [] } msg)
  | (evs, .ok ss2) =>
    let dispatched := dispatchRound env ss2
    (Event.thinking :: (evs ++ dispatched.1), dispatched.2)

/-- Outcome of a whole run of the loop. -/
inductive RunOutcome where
  | finished
  | raised (msg : String)
  | outOfScript
deriving DecidableEq

/-- The fatal iteration-ceiling event emitted after the loop exits. -/
def maxIterationsEvent (env : Env) : Event :=
  .error "MAX_ITERATIONS_REACHED"
    ("Reached maximum iterations (" ++ toString env.cfg.MAX_ITERATIONS ++ "); aborting execution")

/-- Drive the loop over the scripted rounds, including the
post-loop `MAX_ITERATIONS` check (also performed after a `break`,
where it never fires because the final-answer branch leaves
`iteration` unchanged). -/
def runRounds (env : Env) : LoopState → List (List Chunk) → List Event × LoopState × RunOutcome
  | st, [] =>
    if st.iteration ≥ env.cfg.MAX_ITERATIONS then ([maxIterationsEvent env], st, .finished)
    else ([], st, .outOfScript)
  | st, round :: rest =>
    if st.iteration ≥ env.cfg.MAX_ITERATIONS then ([maxIterationsEvent env], st, .finished)
    else
      match runPass env st round with
      | (evs, .cont st') =>
        let r := runRounds env st' rest
        (evs ++ r.1, r.2)
      | (evs, .brk st') =>
        if st'.iteration ≥ env.cfg.MAX_ITERATIONS then (evs ++ [maxIterationsEvent env], st', .finished)
        else (evs, st', .finished)
      | (evs, .raised st' msg) => (evs, st', .raised msg)
      | (evs, .noScript st') => (evs, st', .outOfScript)

/-- Model of `run_agent_loop`: the preamble (initial status event, the
system-prompt prepend, sequence allocation from `max(existing) + 1`,
the user-message write and history append) followed by the loop.
`history0` stands for the output of `load_complete_history` and
`user_content` for the output of `build_message_content_with_files`,
both out of scope of the claims settled here. -/
def run_agent_loop (env : Env) (db0 : List DbMsg) (history0 : List HistMsg)
    (user_content : List Json) (rounds : List (List Chunk)) (tools : List ToolOutcome) :
    List Event × LoopState × RunOutcome :=
  let hist1 :=
    if (match history0.head? with
        | some m => m.role != "system"
        | Option.none => true) then
      sysMsg env.cfg.SYSTEM_PROMPT :: history0
    else history0
  let max_sequence := db0.foldl (fun m r => max m r.sequence) 0
  let seq0 := max_sequence + 1
  let saved := save_user_message_to_db env.sessionId user_content seq0 db0
  let st0 : LoopState :=
    { iteration := 0, retry_count := 0, ready_to_reply_guard := false,
      last_stream_guard_state := Option.none, progress_segments := [], progress_buffer := "",
      self_check_reminder_inserted := false, force_reasoning_next := false,
      pending_text_output := "", textual_calls_detected := [],
      history := hist1 ++ [⟨"user", .json (.arr user_content), Option.none, []⟩],
      current_sequence := seq0 + 1, db := saved.2, toolQueue := tools }
  let rr := runRounds env st0 rounds
  (Event.status "processing" :: rr.1, rr.2)

/-- Model of `event_generator` (`api/chat.py`): forward the loop's
events; an exception escaping the loop is caught and surfaced as one
trailing `INTERNAL_ERROR` error event. -/
def event_generator (env : Env) (db0 : List DbMsg) (history0 : List HistMsg)
    (user_content : List Json) (rounds : List (List Chunk)) (tools : List ToolOutcome) :
    List Event :=
  match run_agent_loop env db0 history0 user_content rounds tools with
  | (evs, _, .raised msg) => evs ++ [Event.error "INTERNAL_ERROR" msg]
  | (evs, _, _) => evs

/-- The loop state carried by a pass result. -/
def stateOfPass : PassResult → LoopState
  | .cont st => st
  | .brk st => st
  | .raised st _ => st
  | .noScript st => st

/-- Is the event a `done` event? -/
def isDoneEv : Event → Bool
  | .done _ _ _ => true
  | _ => false

/-- Is the event an `error` event? -/
def isErrorEv : Event → Bool
  | .error _ _ => true
  | _ => false

/-- Is the event terminal (`done` or `error`)? -/
def isTerminalEv (e : Event) : Bool :=
  isDoneEv e || isErrorEv e

/-- Is the event a content-stream event (`content_start` /
`content_delta`)?  The streaming phase emits nothing else. -/
def isContentEv : Event → Bool
  | .contentStart _ => true
  | .contentDelta _ _ => true
  | _ => false

/-- Is the event a `retry` event with the given reason? -/
def isRetryReasonEv (reason : String) : Event → Bool
  | .retry r _ _ => r == reason
  | _ => false

/-- Is the event any `retry` event? -/
def isRetryEv : Event → Bool
  | .retry _ _ _ => true
  | _ => false

/-- Is the event a `tool_result` event (the marker of a completed tool
execution, which resets the shared retry counter)? -/
def isToolResultEv : Event → Bool
  | .toolResultEv _ _ _ _ => true
  | _ => false

/-- Is the event a `status` event with the given status string? -/
def isStatusEv (s : String) : Event → Bool
  | .status s' => s' == s
  | _ => false

/-- Number of `retry` events with the given reason. -/
def countRetryReason (reason : String) (evs : List Event) : Nat :=
  (evs.filter (isRetryReasonEv reason)).length

/-- Number of `retry` events of any reason. -/
def countRetryAll (evs : List Event) : Nat :=
  (evs.filter isRetryEv).length

/-- Number of `error` events. -/
def countErrorEv (evs : List Event) : Nat :=
  (evs.filter isErrorEv).length

/-- An assistant-final row: the only writer of `model_id` is
`save_assistant_message_to_db`, whose content is the
`assistant_final` payload. -/
def isFinalRow (m : DbMsg) : Bool :=
  m.role == "assistant" && m.model_id.isSome

/-- Does the fragment carry any field whose accumulation indexes the
buffer (a truthy `id`, `function.name` or `function.arguments`)? -/
def fragHasPayload (tc : ToolCallFrag) : Bool :=
  pyTruthyStr tc.id ||
    (match tc.function with
     | some f => pyTruthyStr f.name || pyTruthyStr f.arguments
     | Option.none => false)

/-- Agreement of two loop states on every field the streaming phase
never writes (all but the pending buffer, the detected textual calls,
the guard-flip tracker and the in-flight progress buffer). -/
def loopAgrees (a b : LoopState) : Prop :=
  b.iteration = a.iteration ∧ b.retry_count = a.retry_count ∧
  b.ready_to_reply_guard = a.ready_to_reply_guard ∧
  b.history = a.history ∧ b.current_sequence = a.current_sequence ∧
  b.db = a.db ∧ b.toolQueue = a.toolQueue ∧
  b.progress_segments = a.progress_segments ∧
  b.self_check_reminder_inserted = a.self_check_reminder_inserted ∧
  b.force_reasoning_next = a.force_reasoning_next

theorem loopAgrees_refl (a : LoopState) : loopAgrees a a :=
  ⟨rfl, rfl, rfl, rfl, rfl, rfl, rfl, rfl, rfl, rfl⟩

theorem loopAgrees_trans {a b c : LoopState} (h1 : loopAgrees a b) (h2 : loopAgrees b c) :
    loopAgrees a c := by
  obtain ⟨e1, e2, e3, e4, e5, e6, e7, e8, e9, e10⟩ := h1
  obtain ⟨f1, f2, f3, f4, f5, f6, f7, f8, f9, f10⟩ := h2
  exact ⟨f1.trans e1, f2.trans e2, f3.trans e3, f4.trans e4, f5.trans e5,
    f6.trans e6, f7.trans e7, f8.trans e8, f9.trans e9, f10.trans e10⟩

theorem emitSegments_events_content (guard : Bool) (segs : List String) (lg : Option Bool)
    (fc pb : String) : ∀ e ∈ (emitSegments guard segs lg fc pb).1, isContentEv e = true := by
  induction segs generalizing lg fc pb with
  | nil => intro e he; simp [emitSegments] at he
  | cons s rest ih =>
    intro e he
    simp only [emitSegments] at he
    rcases List.mem_append.mp he with h | h
    · split at h <;> simp_all [isContentEv]
    · rcases List.mem_cons.mp h with h' | h'
      · subst h'; rfl
      · exact ih _ _ _ e h'

theorem emitSegments_guard_full (segs : List String) (lg : Option Bool) (fc pb : String) :
    (emitSegments true segs lg fc pb).2.2.1 = fc := by
  induction segs generalizing lg fc pb with
  | nil => rfl
  | cons s rest ih => simp only [emitSegments]; exact ih _ _ _

theorem drainPending_loopAgrees (ss : StreamSt) (f : Bool) :
    loopAgrees ss.loop (drainPending ss f).2.loop :=
  ⟨rfl, rfl, rfl, rfl, rfl, rfl, rfl, rfl, rfl, rfl⟩

theorem drainPending_buffer (ss : StreamSt) (f : Bool) :
    (drainPending ss f).2.buffer = ss.buffer := rfl

theorem drainPending_finish (ss : StreamSt) (f : Bool) :
    (drainPending ss f).2.finish_reason = ss.finish_reason := rfl

theorem drainPending_events_content (ss : StreamSt) (f : Bool) :
    ∀ e ∈ (drainPending ss f).1, isContentEv e = true := by
  intro e he
  exact emitSegments_events_content _ _ _ _ _ e he

theorem drainPending_guard_full (ss : StreamSt) (f : Bool)
    (h : ss.loop.ready_to_reply_guard = true) :
    (drainPending ss f).2.full_content = ss.full_content := by
  show (emitSegments ss.loop.ready_to_reply_guard _ _ _ _).2.2.1 = ss.full_content
  rw [h]
  exact emitSegments_guard_full _ _ _ _

theorem coerceFinish_loop (ss : StreamSt) : (coerceFinish ss).loop = ss.loop := by
  unfold coerceFinish; split <;> rfl

theorem coerceFinish_full (ss : StreamSt) : (coerceFinish ss).full_content = ss.full_content := by
  unfold coerceFinish; split <;> rfl

theorem processContent_events (ss : StreamSt) (o : Option String) :
    ∀ e ∈ (processContent ss o).1, isContentEv e = true := by
  cases o with
  | none => intro e he; simp [processContent] at he
  | some s =>
    by_cases hs : (s == "") = true
    · intro e he; simp [processContent, hs] at he
    · intro e he
      simp only [processContent, hs] at he
      exact drainPending_events_content _ _ e he

theorem processContent_loopAgrees (ss : StreamSt) (o : Option String) :
    loopAgrees ss.loop (processContent ss o).2.loop := by
  cases o with
  | none => exact loopAgrees_refl _
  | some s =>
    by_cases hs : (s == "") = true
    · simp only [processContent, hs]; exact loopAgrees_refl _
    · simp only [processContent, hs]
      exact drainPending_loopAgrees _ _

theorem processContent_buffer (ss : StreamSt) (o : Option String) :
    (processContent ss o).2.buffer = ss.buffer := by
  cases o with
  | none => rfl
  | some s =>
    by_cases hs : (s == "") = true
    · simp [processContent, hs]
    · simp only [processContent, hs]
      exact drainPending_buffer _ _

theorem processContent_finish (ss : StreamSt) (o : Option String) :
    (processContent ss o).2.finish_reason = ss.finish_reason := by
  cases o with
  | none => rfl
  | some s =>
    by_cases hs : (s == "") = true
    · simp [processContent, hs]
    · simp only [processContent, hs]
      exact drainPending_finish _ _

theorem processContent_guard_full (ss : StreamSt) (o : Option String)
    (h : ss.loop.ready_to_reply_guard = true) :
    (processContent ss o).2.full_content = ss.full_content := by
  cases o with
  | none => rfl
  | some s =>
    by_cases hs : (s == "") = true
    · simp [processContent, hs]
    · simp only [processContent, hs]
      exact drainPending_guard_full _ _ h

theorem processChunk_events (ss : StreamSt) (c : Chunk) :
    ∀ e ∈ (processChunk ss c).1, isContentEv e = true :=
  fun e he => processContent_events ss c.content e he

theorem processChunk_ok (ss : StreamSt) (c : Chunk) (evs : List Event) (ss' : StreamSt)
    (h : processChunk ss c = (evs, .ok ss')) :
    loopAgrees ss.loop ss'.loop ∧
    (ss.loop.ready_to_reply_guard = true → ss'.full_content = ss.full_content) := by
  have hsnd := congrArg Prod.snd h
  simp only [processChunk] at hsnd
  split at hsnd
  · exact absurd hsnd (by simp)
  · have hss := Except.ok.inj hsnd
    rw [← hss]
    refine ⟨processContent_loopAgrees ss c.content, ?_⟩
    intro hg
    exact processContent_guard_full ss c.content hg

theorem processChunks_events (ss : StreamSt) (chunks : List Chunk) :
    ∀ e ∈ (processChunks ss chunks).1, isContentEv e = true := by
  induction chunks generalizing ss with
  | nil => intro e he; simp [processChunks] at he
  | cons c rest ih =>
    intro e he
    simp only [processChunks] at he
    rcases hpc : processChunk ss c with ⟨evs1, res⟩
    rw [hpc] at he
    cases res with
    | error msg =>
      simp only at he
      exact processChunk_events ss c e (by rw [hpc]; exact he)
    | ok ssm =>
      simp only at he
      rcases List.mem_append.mp he with h | h
      · exact processChunk_events ss c e (by rw [hpc]; exact h)
      · exact ih ssm e h

theorem processChunks_ok (ss : StreamSt) (chunks : List Chunk) (evs : List Event) (ss' : StreamSt)
    (h : processChunks ss chunks = (evs, .ok ss')) :
    loopAgrees ss.loop ss'.loop ∧
    (ss.loop.ready_to_reply_guard = true → ss'.full_content = ss.full_content) := by
  induction chunks generalizing ss evs with
  | nil =>
    simp only [processChunks, Prod.mk.injEq, Except.ok.injEq] at h
    rw [← h.2]
    exact ⟨loopAgrees_refl _, fun _ => rfl⟩
  | cons c rest ih =>
    simp only [processChunks] at h
    rcases hpc : processChunk ss c with ⟨evs1, res⟩
    rw [hpc] at h
    cases res with
    | error msg => simp at h
    | ok ssm =>
      simp only at h
      rcases hrec : processChunks ssm rest with ⟨evs2, res2⟩
      rw [hrec] at h
      cases res2 with
      | error msg => simp at h
      | ok ssf =>
        simp only [Prod.mk.injEq, Except.ok.injEq] at h
        have hss : ssf = ss' := h.2
        subst hss
        have h1 := processChunk_ok ss c evs1 ssm hpc
        have h2 := ih ssm evs2 hrec
        refine ⟨loopAgrees_trans h1.1 h2.1, ?_⟩
        intro hg
        have hgm : ssm.loop.ready_to_reply_guard = true := h1.1.2.2.1.trans hg
        exact (h2.2 hgm).trans (h1.2 hg)

theorem streamRound_events (st : LoopState) (round : List Chunk) :
    ∀ e ∈ (streamRound st round).1, isContentEv e = true := by
  intro e
  unfold streamRound
  split
  · next evs1 msg hpc =>
    intro he
    exact processChunks_events _ round e (by rw [hpc]; exact he)
  · next evs1 ss1 hpc =>
    intro he
    rcases List.mem_append.mp he with h | h
    · exact processChunks_events _ round e (by rw [hpc]; exact h)
    · exact drainPending_events_content _ _ e h

theorem streamRound_ok (st : LoopState) (round : List Chunk) (evs : List Event) (ss2 : StreamSt)
    (h : streamRound st round = (evs, .ok ss2)) :
    loopAgrees st ss2.loop ∧
    (st.ready_to_reply_guard = true → ss2.full_content = "") := by
  unfold streamRound at h
  split at h
  · exact absurd (congrArg Prod.snd h) (by simp)
  · next evs1 ss1 hpc =>
    have hsnd := congrArg Prod.snd h
    simp only [Except.ok.injEq] at hsnd
    rw [← hsnd]
    have h1 := processChunks_ok _ round evs1 ss1 hpc
    have hA : loopAgrees { st with textual_calls_detected := [] } ss1.loop := h1.1
    have hA0 : loopAgrees st ({ st with textual_calls_detected := [] } : LoopState) :=
      ⟨rfl, rfl, rfl, rfl, rfl, rfl, rfl, rfl, rfl, rfl⟩
    constructor
    · rw [coerceFinish_loop]
      exact loopAgrees_trans hA0 (loopAgrees_trans hA (drainPending_loopAgrees ss1 true))
    · intro hg
      have hg1 : ss1.loop.ready_to_reply_guard = true := hA.2.2.1.trans hg
      rw [coerceFinish_full, drainPending_guard_full ss1 true hg1]
      exact h1.2 hg

/-- Fixture configuration for concrete runs: the two numeric budgets are
the `config.toml` defaults (`max_iterations = 50`,
`max_retry_on_multiple_tools = 3`); the prompt strings are deployment
data (TOML), instantiated with fixture text. -/
def demoConfig : Config :=
  ⟨50, 3, "You are a helpful assistant.", "Please invoke only one tool per turn.", ""⟩

/-- Fixture environment (empty file store, session 1). -/
def demoEnv : Env := ⟨demoConfig, [], [], 1, "demo-model"⟩

/-- Fixture user content block list. -/
def demoUserContent : List Json := [Json.obj [("type", Json.str "text"), ("text", Json.str "hi")]]

/-- C8 (counterexample): `projectToolResult` differs from the claim on
both arms.  With `image_blocks = ["x"]` (a non-empty list with a
non-dict element) the code returns only the text head — the claimed
"followed by each image block" fails, because non-dict blocks are
skipped.  With `image_blocks = []` the code returns the serialization of
the dict *without* the `image_blocks` key, not `json(obj)` as claimed. -/
theorem C8_counterexample :
    (build_tool_message_content (Json.obj [("image_blocks", Json.arr [Json.str "x"])]) =
        Json.arr [Json.obj [("type", Json.str "text"), ("text", Json.str "\x7b\x7d")]] ∧
      Json.arr [Json.obj [("type", Json.str "text"), ("text", Json.str "\x7b\x7d")]] ≠
        Json.arr [Json.obj [("type", Json.str "text"), ("text", Json.str "\x7b\x7d")],
          Json.str "x"]) ∧
    (build_tool_message_content (Json.obj [("image_blocks", Json.arr []), ("a", Json.num 1)]) =
        Json.str "\x7b\"a\": 1\x7d" ∧
      Json.str "\x7b\"a\": 1\x7d" ≠
        Json.str (jsonDumps (Json.obj [("image_blocks", Json.arr []), ("a", Json.num 1)]))) :=
  ⟨⟨rfl, fun h => absurd (congrArg jsonDumps h) (by decide)⟩,
   ⟨rfl, fun h => absurd (congrArg jsonDumps h) (by decide)⟩⟩

/-- C8 (amended): for every dict tool result, when `image_blocks` is a
non-empty list the result is the text head — serializing the dict with
the `image_blocks` key removed — followed by each image block *that is
itself a dict* (non-dict entries are skipped); in every other case the
result is the serialization of the dict with the `image_blocks` key
removed. -/
theorem C8_amended (fields : List (String × Json)) :
    build_tool_message_content (Json.obj fields) =
      (match objGet fields "image_blocks" with
       | some (Json.arr (b :: bs)) =>
         Json.arr (Json.obj [("type", Json.str "text"),
             ("text", Json.str (jsonDumps (Json.obj (objRemove fields "image_blocks"))))] ::
           (b :: bs).filter (fun x => match x with | Json.obj _ => true | _ => false))
       | _ => Json.str (jsonDumps (Json.obj (objRemove fields "image_blocks")))) := by
  unfold build_tool_message_content
  rcases h : objGet fields "image_blocks" with _ | v
  · simp only [h]
  · cases v with
    | arr es =>
      cases es with
      | nil => simp [h]
      | cons b bs => simp [h]
    | null => simp [h]
    | bool b => simp [h]
    | num n => simp [h]
    | str s => simp [h]
    | obj fs => simp [h]

/-- C10 (counterexample): a tool-call fragment whose index is at least
the buffer length plus one but which carries no id, name or arguments
does *not* raise `IndexError`: exactly one empty slot is appended and
the run continues (here all the way to a `done`, with zero `error`
events), contradicting the claim that any such fragment aborts the
run. -/
theorem C10_counterexample :
    accumToolCallFrag [] ⟨1, Option.none, Option.none⟩ = Except.ok [⟨"", "", ""⟩] ∧
    countErrorEv (event_generator demoEnv [] [] demoUserContent
      [[⟨Option.none, [⟨1, Option.none, Option.none⟩], Option.none⟩,
        ⟨some "ok", [], some "stop"⟩]] []) = 0 :=
  ⟨rfl, by decide⟩

/-- C10 (amended): the accumulator appends at most one empty slot per
fragment, so a fragment whose index is at least the buffer length plus
one raises `IndexError` exactly when it carries a truthy id, name or
arguments field (otherwise the slot is appended and the fragment is
otherwise ignored); and any exception raised out of the loop surfaces
to the client as a single trailing `INTERNAL_ERROR` error event. -/
theorem C10_amended :
    (∀ (buf : List ToolCall) (tc : ToolCallFrag), buf.length + 1 ≤ tc.index →
      (fragHasPayload tc = true →
        accumToolCallFrag buf tc = Except.error "list index out of range") ∧
      (fragHasPayload tc = false →
        accumToolCallFrag buf tc = Except.ok (buf ++ [⟨"", "", ""⟩]))) ∧
    (∀ (env : Env) (db0 : List DbMsg) (history0 : List HistMsg) (user_content : List Json)
        (rounds : List (List Chunk)) (tools : List ToolOutcome) (evs : List Event)
        (stF : LoopState) (msg : String),
      run_agent_loop env db0 history0 user_content rounds tools = (evs, stF, .raised msg) →
      event_generator env db0 history0 user_content rounds tools =
        evs ++ [Event.error "INTERNAL_ERROR" msg]) := by
  constructor
  · intro buf tc hidx
    have hge : buf.length ≤ tc.index := Nat.le_of_succ_le hidx
    have hnot : ¬ tc.index < buf.length + 1 := by omega
    constructor
    · intro hp
      unfold accumToolCallFrag
      rw [if_pos hge]
      rcases hid : pyTruthyStr tc.id with _ | _
      · rcases hf : tc.function with _ | f
        · simp [fragHasPayload, hid, hf] at hp
        · rcases hn : pyTruthyStr f.name with _ | _
          · rcases ha : pyTruthyStr f.arguments with _ | _
            · simp [fragHasPayload, hid, hf, hn, ha] at hp
            · simp [hid, hf, hn, ha, hnot, List.length_append]
          · simp [hid, hf, hn, hnot, List.length_append]
      · simp [hid, hnot, List.length_append]
    · intro hp
      unfold accumToolCallFrag
      rw [if_pos hge]
      rcases hf : tc.function with _ | f
      · simp only [fragHasPayload, hf, Bool.or_false] at hp
        simp [hp, hf]
      · simp only [fragHasPayload, hf, Bool.or_eq_false_iff] at hp
        simp [hp.1, hp.2.1, hp.2.2, hf]
  · intro env db0 h0 uc rounds tools evs stF msg h
    unfold event_generator
    rw [h]

theorem dispatchRound_eq_stop (env : Env) (ss : StreamSt) (h : ss.finish_reason = some "stop") :
    dispatchRound env ss = dispatchStop env ss := by
  unfold dispatchRound
  rw [h]
  have h1 : ((some "stop" : Option String) == some "tool_calls") = false := by decide
  have h2 : ((some "stop" : Option String) == some "stop") = true := by decide
  rw [h1, h2]
  simp

theorem dispatchRound_eq_other (env : Env) (ss : StreamSt)
    (h1 : (ss.finish_reason == some "tool_calls" && !ss.buffer.isEmpty) = false)
    (h2 : (ss.finish_reason == some "stop") = false) :
    dispatchRound env ss = dispatchOtherFinish env ss := by
  unfold dispatchRound
  rw [h1, h2]
  simp

theorem dispatchRound_eq_single (env : Env) (ss : StreamSt) (tc : ToolCall)
    (h : ss.finish_reason = some "tool_calls") (hb : ss.buffer = [tc]) :
    dispatchRound env ss = execSingleToolCall env ss tc := by
  unfold dispatchRound
  rw [h, hb]
  simp

/-- C2 (counterexample): a round trip finishing with the unrecognized
non-null reason `"length"` is *not* first treated as recoverable: the
run (retry budget 3, counter untouched) emits no
`retry(empty_finish_reason)` event at all and fails immediately with
`UNEXPECTED_FINISH_REASON` (followed by the wrapper's
`INTERNAL_ERROR`). -/
theorem C2_counterexample :
    countRetryReason "empty_finish_reason"
        (event_generator demoEnv [] [] demoUserContent
          [[⟨some "half", [], some "length"⟩]] []) = 0 ∧
    (event_generator demoEnv [] [] demoUserContent
        [[⟨some "half", [], some "length"⟩]] []).any
      (fun e => match e with
        | .error c _ => c == "UNEXPECTED_FINISH_REASON"
        | _ => false) = true := by
  constructor
  · decide
  · decide

/-- C2 (amended): only a `None` finish reason with no streamed content
and no tool calls is recoverable — it increments the shared retry
counter with reason `empty_finish_reason` and becomes fatal
`UNEXPECTED_FINISH_REASON` once the budget is exhausted; every other
finish reason that is neither `stop` nor a non-empty `tool_calls`
(e.g. `"length"`) emits fatal `UNEXPECTED_FINISH_REASON` immediately,
with no retry. -/
theorem C2_amended (env : Env) (ss : StreamSt)
    (htc : ss.finish_reason = some "tool_calls" → ss.buffer = [])
    (hstop : ss.finish_reason ≠ some "stop") :
    (ss.finish_reason = Option.none → ss.full_content = "" → ss.buffer = [] →
      (ss.loop.retry_count < env.cfg.MAX_RETRY_ON_MULTIPLE_TOOLS →
        dispatchRound env ss =
          ([Event.retry "empty_finish_reason" (ss.loop.retry_count + 1)
              env.cfg.MAX_RETRY_ON_MULTIPLE_TOOLS],
           PassResult.cont
             { ss.loop with
               retry_count := ss.loop.retry_count + 1,
               history := ss.loop.history ++ [sysMsg empty_finish_reminder] })) ∧
      (env.cfg.MAX_RETRY_ON_MULTIPLE_TOOLS ≤ ss.loop.retry_count →
        dispatchRound env ss =
          ([Event.error "UNEXPECTED_FINISH_REASON"
              "Model produced no content or tool call after multiple retries."],
           PassResult.raised { ss.loop with retry_count := ss.loop.retry_count + 1 }
             "finish_reason None after retries"))) ∧
    (¬ (ss.finish_reason = Option.none ∧ ss.full_content = "" ∧ ss.buffer = []) →
      ∃ msg, dispatchRound env ss =
        ([Event.error "UNEXPECTED_FINISH_REASON" msg], PassResult.raised ss.loop msg)) := by
  have hc1 : (ss.finish_reason == some "tool_calls" && !ss.buffer.isEmpty) = false := by
    rcases hfr : ss.finish_reason == some "tool_calls" with _ | _
    · simp
    · have : ss.buffer = [] := htc (by simpa using hfr)
      simp [this]
  have hc2 : (ss.finish_reason == some "stop") = false := by
    simpa using hstop
  have hred := dispatchRound_eq_other env ss hc1 hc2
  constructor
  · intro h1 h2 h3
    have hcond : (ss.finish_reason.isNone && ss.full_content == "" && ss.buffer.isEmpty) = true := by
      simp [h1, h2, h3]
    constructor
    · intro hlt
      rw [hred]
      unfold dispatchOtherFinish
      rw [hcond]
      have hb : ¬ (ss.loop.retry_count + 1 > env.cfg.MAX_RETRY_ON_MULTIPLE_TOOLS) := by omega
      simp [hb]
    · intro hge
      rw [hred]
      unfold dispatchOtherFinish
      rw [hcond]
      have hb : ss.loop.retry_count + 1 > env.cfg.MAX_RETRY_ON_MULTIPLE_TOOLS := by omega
      simp [hb]
  · intro hne
    have hcond : (ss.finish_reason.isNone && ss.full_content == "" && ss.buffer.isEmpty) = false := by
      rcases hn : ss.finish_reason.isNone with _ | _
      · simp
      · rcases hfc : ss.full_content == "" with _ | _
        · simp
        · rcases hbe : ss.buffer.isEmpty with _ | _
          · simp
          · exact absurd ⟨Option.isNone_iff_eq_none.mp hn, by simpa using hfc,
              List.isEmpty_iff.mp hbe⟩ hne
    rw [hred]
    unfold dispatchOtherFinish
    rw [hcond]
    exact ⟨"Unexpected finish_reason: " ++
      (match ss.finish_reason with | some s => s | Option.none => "None"), by simp⟩

/-- A concrete loop state for instantiating theorems with hypotheses. -/
def demoLoop : LoopState :=
  { iteration := 0, retry_count := 0, ready_to_reply_guard := false,
    last_stream_guard_state := Option.none, progress_segments := [], progress_buffer := "",
    self_check_reminder_inserted := false, force_reasoning_next := false,
    pending_text_output := "", textual_calls_detected := [],
    history := [sysMsg "You are a helpful assistant."], current_sequence := 2,
    db := [], toolQueue := [] }

/-- C2 (witness): at a concrete fresh state, a `None` finish with
nothing streamed yields `retry(empty_finish_reason, 1/3)`, while a
`"length"` finish is immediately fatal. -/
theorem C2_amended_witness :
    dispatchRound demoEnv
        { loop := demoLoop, full_content := "", buffer := [], finish_reason := Option.none } =
      ([Event.retry "empty_finish_reason" 1 3],
       PassResult.cont
         { demoLoop with
           retry_count := 1,
           history := demoLoop.history ++ [sysMsg empty_finish_reminder] }) ∧
    (∃ msg, dispatchRound demoEnv
        { loop := demoLoop, full_content := "half", buffer := [], finish_reason := some "length" } =
      ([Event.error "UNEXPECTED_FINISH_REASON" msg], PassResult.raised demoLoop msg)) := by
  constructor
  · exact ((C2_amended demoEnv _ (fun h => Option.noConfusion h)
      (fun h => Option.noConfusion h)).1 rfl rfl rfl).1 (by decide)
  · exact (C2_amended demoEnv _ (fun h => absurd h (by decide)) (by decide)).2
      (fun hh => Option.noConfusion hh.1)

/-- C6: for every tool execution, a raised exception becomes the result
`\x7bsuccess: false, error: msg\x7d` with `success = false` on the emitted
`tool_result` event; a returned dict with an explicit `success` key
yields that value's truthiness as the event's flag; any other dict and
any non-dict result yield `success = true`; and in every case the pass
continues (`PassResult.cont`) — tool failure is never fatal. -/
theorem C6_tool_failure_nonfatal (env : Env) (ss : StreamSt) (tc : ToolCall)
    (outcome : ToolOutcome) (queue' : List ToolOutcome)
    (hq : ss.loop.toolQueue = outcome :: queue') :
    (∃ st' tool_name tool_input,
      execSingleToolCall env ss tc =
        ([Event.iterationInfo (ss.loop.iteration + 1) env.cfg.MAX_ITERATIONS,
          Event.toolCallEv tc.id tool_name tool_input,
          Event.toolExecuting tc.id tool_name,
          Event.toolResultEv tc.id tool_name (runToolOutcome outcome).1
            (runToolOutcome outcome).2],
         PassResult.cont st')) ∧
    (∀ msg, runToolOutcome (.raises msg) =
      (Json.obj [("success", Json.bool false), ("error", Json.str msg)], false)) ∧
    (∀ fields sv, objGet fields "success" = some sv →
      runToolOutcome (.returns (Json.obj fields)) = (Json.obj fields, pyTruthy sv)) ∧
    (∀ fields, objGet fields "success" = Option.none →
      runToolOutcome (.returns (Json.obj fields)) = (Json.obj fields, true)) ∧
    (∀ v : Json, (match v with | Json.obj _ => False | _ => True) →
      runToolOutcome (.returns v) = (v, true)) := by
  refine ⟨?_, ?_, ?_, ?_, ?_⟩
  · simp only [execSingleToolCall, hq]
    exact ⟨_, _, _, rfl⟩
  · intro msg; rfl
  · intro fields sv h; simp [runToolOutcome, h]
  · intro fields h; simp [runToolOutcome, h]
  · intro v hv
    cases v with
    | obj fs => exact hv.elim
    | null => rfl
    | bool b => rfl
    | num n => rfl
    | str s => rfl
    | arr es => rfl

/-- C5: every persisted tool execution writes the assistant tool-call
row at the current sequence and the tool row carrying the same
`tool_call_id` immediately after it at sequence `+ 1`, then advances the
sequence counter by 2 (the optional artifact row follows at `+ 2` and
advances it once more). -/
theorem C5_tool_pair_adjacent (env : Env) (ss : StreamSt) (tc : ToolCall)
    (outcome : ToolOutcome) (queue' : List ToolOutcome)
    (hq : ss.loop.toolQueue = outcome :: queue') :
    ∃ evs st' a t extra,
      execSingleToolCall env ss tc = (evs, PassResult.cont st') ∧
      st'.db = ss.loop.db ++ a :: t :: extra ∧
      a.role = "assistant" ∧ a.sequence = ss.loop.current_sequence ∧
      a.tool_call_id = some tc.id ∧
      t.role = "tool" ∧ t.sequence = ss.loop.current_sequence + 1 ∧
      t.tool_call_id = some tc.id ∧
      extra.length ≤ 1 ∧
      (∀ m ∈ extra, m.sequence = ss.loop.current_sequence + 2 ∧
        m.tool_name = some ASSISTANT_ARTIFACT_TOOL_NAME ∧ m.model_id = Option.none) ∧
      st'.current_sequence = ss.loop.current_sequence + 2 + extra.length := by
  rcases hart : artifactFor env (runToolOutcome outcome).1 with _ | content
  · simp only [execSingleToolCall, hq, hart, save_tool_call_to_db]
    exact ⟨_, _, _, _, _, rfl, rfl, rfl, rfl, rfl, rfl, rfl, rfl, by simp,
      by intro m hm; simp at hm, rfl⟩
  · simp only [execSingleToolCall, hq, hart, save_tool_call_to_db,
      save_assistant_structured_message_to_db, List.append_assoc, List.cons_append,
      List.nil_append]
    exact ⟨_, _, _, _, _, rfl, rfl, rfl, rfl, rfl, rfl, rfl, rfl, by simp,
      by intro m hm; simp only [List.mem_singleton] at hm; subst hm; exact ⟨rfl, rfl, rfl⟩,
      rfl⟩

/-- A concrete structured tool call. -/
def demoToolCall : ToolCall := ⟨"c1", "get_current_time", "\x7b\x7d"⟩

/-- Stream state holding one scripted tool outcome that raises. -/
def demoRaisesSS : StreamSt :=
  { loop := { demoLoop with toolQueue := [ToolOutcome.raises "boom"] },
    full_content := "", buffer := [demoToolCall], finish_reason := some "tool_calls" }

/-- Stream state holding one scripted successful tool outcome. -/
def demoToolSS : StreamSt :=
  { loop := { demoLoop with toolQueue := [ToolOutcome.returns (Json.obj [("success", Json.bool true)])] },
    full_content := "", buffer := [demoToolCall], finish_reason := some "tool_calls" }

/-- C6 (witness): concrete instantiation with a raising executor. -/
theorem C6_witness :
    (∃ st' tool_name tool_input,
      execSingleToolCall demoEnv demoRaisesSS demoToolCall =
        ([Event.iterationInfo (demoRaisesSS.loop.iteration + 1) demoEnv.cfg.MAX_ITERATIONS,
          Event.toolCallEv demoToolCall.id tool_name tool_input,
          Event.toolExecuting demoToolCall.id tool_name,
          Event.toolResultEv demoToolCall.id tool_name
            (runToolOutcome (.raises "boom")).1 (runToolOutcome (.raises "boom")).2],
         PassResult.cont st')) ∧
    (∀ msg, runToolOutcome (.raises msg) =
      (Json.obj [("success", Json.bool false), ("error", Json.str msg)], false)) ∧
    (∀ fields sv, objGet fields "success" = some sv →
      runToolOutcome (.returns (Json.obj fields)) = (Json.obj fields, pyTruthy sv)) ∧
    (∀ fields, objGet fields "success" = Option.none →
      runToolOutcome (.returns (Json.obj fields)) = (Json.obj fields, true)) ∧
    (∀ v : Json, (match v with | Json.obj _ => False | _ => True) →
      runToolOutcome (.returns v) = (v, true)) :=
  C6_tool_failure_nonfatal demoEnv demoRaisesSS demoToolCall (.raises "boom") [] rfl

/-- C5 (witness): concrete instantiation with a successful executor. -/
theorem C5_witness :
    ∃ evs st' a t extra,
      execSingleToolCall demoEnv demoToolSS demoToolCall = (evs, PassResult.cont st') ∧
      st'.db = demoToolSS.loop.db ++ a :: t :: extra ∧
      a.role = "assistant" ∧ a.sequence = demoToolSS.loop.current_sequence ∧
      a.tool_call_id = some demoToolCall.id ∧
      t.role = "tool" ∧ t.sequence = demoToolSS.loop.current_sequence + 1 ∧
      t.tool_call_id = some demoToolCall.id ∧
      extra.length ≤ 1 ∧
      (∀ m ∈ extra, m.sequence = demoToolSS.loop.current_sequence + 2 ∧
        m.tool_name = some ASSISTANT_ARTIFACT_TOOL_NAME ∧ m.model_id = Option.none) ∧
      st'.current_sequence = demoToolSS.loop.current_sequence + 2 + extra.length :=
  C5_tool_pair_adjacent demoEnv demoToolSS demoToolCall
    (.returns (Json.obj [("success", Json.bool true)])) [] rfl

/-- C7: every drained segment that the sniffer parses into one or more
normalized tool calls is withheld — the emitted-segment list contains
only segments whose parse is empty, so such text reaches neither the
client (`content_delta`) nor `full_content` / `progress_buffer`, both of
which are extended exclusively from the emitted-segment list — and the
recorded calls route the subsequent `stop` dispatch into the
textual-tool-call branch: within the retry budget it emits
`retry(textual_tool_call)` and sets `force_reasoning_next` for the next
LLM call, and past the budget it is fatal
`TEXTUAL_TOOL_CALL_MAX_RETRIES`. -/
theorem C7_textual_calls_withheld :
    (∀ (guard final : Bool) (pending : String),
      ∀ s ∈ (collect_output_segments guard final pending).segments,
        parse_textual_tool_calls s = []) ∧
    (∀ (env : Env) (ss : StreamSt),
      ss.finish_reason = some "stop" →
      ss.loop.textual_calls_detected ≠ [] →
      (ss.loop.retry_count < env.cfg.MAX_RETRY_ON_MULTIPLE_TOOLS →
        dispatchRound env ss =
          ([Event.retry "textual_tool_call" (ss.loop.retry_count + 1)
              env.cfg.MAX_RETRY_ON_MULTIPLE_TOOLS],
           PassResult.cont
             { ss.loop with
               retry_count := ss.loop.retry_count + 1,
               history := ss.loop.history ++ [sysMsg textual_tool_call_reminder],
               textual_calls_detected := [],
               force_reasoning_next := true })) ∧
      (env.cfg.MAX_RETRY_ON_MULTIPLE_TOOLS ≤ ss.loop.retry_count →
        dispatchRound env ss =
          ([Event.error "TEXTUAL_TOOL_CALL_MAX_RETRIES"
              "Model repeatedly emitted raw JSON tool calls without using the structured tool-call channel."],
           PassResult.raised { ss.loop with retry_count := ss.loop.retry_count + 1 }
             "Model emitted raw JSON tool calls after max retries"))) := by
  constructor
  · intro guard final pending s hs
    unfold collect_output_segments at hs
    generalize pending.length + 1 = fuel at hs
    induction fuel generalizing pending with
    | zero => simp [collectSegmentsAux] at hs
    | succ fuel ih =>
      simp only [collectSegmentsAux] at hs
      by_cases hp : (pending == "") = true
      · simp [hp] at hs
      · simp only [hp, Bool.false_eq_true, if_false] at hs
        rcases hns : nextSegment final pending with _ | ⟨seg, rest⟩
        · rw [hns] at hs
          simp at hs
        · rw [hns] at hs
          simp only at hs
          by_cases hpar : (parse_textual_tool_calls seg).isEmpty = true
          · simp only [hpar, if_true] at hs
            rcases List.mem_cons.mp hs with h | h
            · subst h
              exact List.isEmpty_iff.mp hpar
            · exact ih rest h
          · simp only [hpar, Bool.false_eq_true, if_false] at hs
            exact ih rest hs
  · intro env ss hfr htx
    have hred := dispatchRound_eq_stop env ss hfr
    have htxe : ss.loop.textual_calls_detected.isEmpty = false := by
      rcases h : ss.loop.textual_calls_detected with _ | ⟨c, cs⟩
      · exact absurd h htx
      · rfl
    constructor
    · intro hlt
      rw [hred]
      unfold dispatchStop
      have hb : ¬ (ss.loop.retry_count + 1 > env.cfg.MAX_RETRY_ON_MULTIPLE_TOOLS) := by omega
      simp [htxe, hb]
    · intro hge
      rw [hred]
      unfold dispatchStop
      have hb : ss.loop.retry_count + 1 > env.cfg.MAX_RETRY_ON_MULTIPLE_TOOLS := by omega
      simp [htxe, hb]

/-- The textual tool-call line of spec scenario 5. -/
def demoJsonLine : String :=
  "\x7b\"name\":\"ddgs_search\",\"arguments\":\x7b\"query\":\"x\"\x7d\x7d\n"

/-- Stream state after a round that detected one textual tool call and
finished with `stop`. -/
def demoTexSS : StreamSt :=
  { loop := { demoLoop with
      textual_calls_detected := (collect_output_segments false false demoJsonLine).calls },
    full_content := "", buffer := [], finish_reason := some "stop" }

/-- C7 (witness): the scenario-5 line is withheld (no emitted segment,
one recorded call), an ordinary line is emitted and parses to nothing,
and the subsequent `stop` dispatch at a fresh retry counter emits
`retry(textual_tool_call, 1/3)` with forced reasoning. -/
theorem C7_witness :
    (collect_output_segments false false demoJsonLine).segments = [] ∧
    (collect_output_segments false false demoJsonLine).calls.length = 1 ∧
    parse_textual_tool_calls "hello" = [] ∧
    dispatchRound demoEnv demoTexSS =
      ([Event.retry "textual_tool_call" 1 3],
       PassResult.cont
         { demoTexSS.loop with
           retry_count := 1,
           history := demoTexSS.loop.history ++ [sysMsg textual_tool_call_reminder],
           textual_calls_detected := [],
           force_reasoning_next := true }) := by
  refine ⟨by decide, by decide, ?_, ?_⟩
  · exact C7_textual_calls_withheld.1 false true "hello" "hello" (by decide)
  · exact (C7_textual_calls_withheld.2 demoEnv demoTexSS rfl
      (fun h => absurd (congrArg List.length h) (by decide))).1 (by decide)

/-- Script and tool outcome for the C1 run: a `reasoning` call that
engages the guard, then a round streaming text and finishing `stop`. -/
def C1rounds : List (List Chunk) :=
  [[⟨Option.none, [⟨0, some "r1", some ⟨some "reasoning", some "\x7b\x7d"⟩⟩], some "tool_calls"⟩],
   [⟨some "Still gathering info", [], some "stop"⟩]]

/-- The scripted `reasoning` result engaging the guard. -/
def C1tools : List ToolOutcome :=
  [.returns (.obj [("success", .bool true), ("ready_to_reply", .bool false)])]

/-- A loop state with the reply guard engaged (reachability of this
state is part of the counterexample's last conjunct). -/
def C1guardSt : LoopState := { demoLoop with ready_to_reply_guard := true }

/-- A round that streams plain text and finishes with `stop`. -/
def C1textRound : List Chunk := [⟨some "Still gathering info", [], some "stop"⟩]

/-- C1 (counterexample): with the reply guard engaged, a pass that
streams text and ends with `stop` emits *no* `status(awaiting_more_actions)`
event and does *not* flush `progress_buffer`; instead it takes the
empty-content retry path (the streamed text went to `progress_buffer`,
never `full_content`): one `retry(empty_content)` event, the text still
in the in-flight buffer, no committed progress segment, and no database
write.  The final conjunct shows the guard-engaged state is reachable
(a `reasoning` tool round returning `ready_to_reply: false`). -/
theorem C1_counterexample :
    ((runPass demoEnv C1guardSt C1textRound).1.filter
        (isStatusEv "awaiting_more_actions")).length = 0 ∧
    countRetryReason "empty_content" (runPass demoEnv C1guardSt C1textRound).1 = 1 ∧
    (stateOfPass (runPass demoEnv C1guardSt C1textRound).2).ready_to_reply_guard = true ∧
    (stateOfPass (runPass demoEnv C1guardSt C1textRound).2).progress_buffer
      = "Still gathering info" ∧
    (stateOfPass (runPass demoEnv C1guardSt C1textRound).2).progress_segments = [] ∧
    (stateOfPass (runPass demoEnv C1guardSt C1textRound).2).db = C1guardSt.db ∧
    (run_agent_loop demoEnv [] [] demoUserContent [C1rounds.head!]
        C1tools).2.1.ready_to_reply_guard = true := by
  refine ⟨by decide, by decide, by decide, by decide, by decide, by decide, by decide⟩

/-- C1 (amended): while the reply guard is engaged the streamed text is
captured into `progress_buffer` and `full_content` stays empty, so a
turn whose stream ends with `stop` (no textual tool calls, retry budget
not exhausted) takes the *empty-content retry* path: it emits
`retry(empty_content)` with the shared counter, appends the
empty-content reminder, sets `force_reasoning_next`, and restarts the
iteration — without persisting a final assistant answer, without
flushing `progress_buffer`, and without any `awaiting_more_actions`
status event (that branch requires non-blank `full_content`, which a
guarded stream can never produce). -/
theorem C1_amended (env : Env) (st : LoopState) (round : List Chunk) (evs : List Event)
    (ss2 : StreamSt)
    (hg : st.ready_to_reply_guard = true)
    (hsr : streamRound st round = (evs, .ok ss2))
    (hfr : ss2.finish_reason = some "stop")
    (htx : ss2.loop.textual_calls_detected = [])
    (hrc : st.retry_count < env.cfg.MAX_RETRY_ON_MULTIPLE_TOOLS) :
    ss2.full_content = "" ∧
    ∃ st', runPass env st round =
        (Event.thinking :: (evs ++ [Event.retry "empty_content" (st.retry_count + 1)
            env.cfg.MAX_RETRY_ON_MULTIPLE_TOOLS]),
         PassResult.cont st') ∧
      st'.db = st.db ∧
      st'.force_reasoning_next = true ∧
      st'.iteration = st.iteration ∧
      st'.ready_to_reply_guard = true ∧
      st'.progress_segments = st.progress_segments ∧
      st'.progress_buffer = ss2.loop.progress_buffer := by
  have hstream := streamRound_ok st round evs ss2 hsr
  have hfc : ss2.full_content = "" := hstream.2 hg
  have hrc2 : ss2.loop.retry_count = st.retry_count := hstream.1.2.1
  have hdb : ss2.loop.db = st.db := hstream.1.2.2.2.2.2.1
  have hit : ss2.loop.iteration = st.iteration := hstream.1.1
  have hgu : ss2.loop.ready_to_reply_guard = st.ready_to_reply_guard := hstream.1.2.2.1
  have hps : ss2.loop.progress_segments = st.progress_segments := hstream.1.2.2.2.2.2.2.2.1
  refine ⟨hfc, ?_⟩
  have htxe : ss2.loop.textual_calls_detected.isEmpty = true := by rw [htx]; rfl
  have hb : ¬ (ss2.loop.retry_count + 1 > env.cfg.MAX_RETRY_ON_MULTIPLE_TOOLS) := by omega
  have hb2 : ¬ (env.cfg.MAX_RETRY_ON_MULTIPLE_TOOLS < st.retry_count + 1) := by omega
  refine ⟨{ ss2.loop with
      retry_count := ss2.loop.retry_count + 1,
      history := ss2.loop.history ++ [sysMsg empty_content_reminder],
      force_reasoning_next := true }, ?_, ?_, ?_, ?_, ?_, ?_, ?_⟩
  · unfold runPass
    rw [hsr]
    simp only
    rw [dispatchRound_eq_stop env ss2 hfr]
    unfold dispatchStop
    simp [htxe, hfc, hb, hb2, hrc2, pyStrip]
  · exact hdb
  · rfl
  · exact hit
  · exact hgu.trans hg
  · exact hps
  · rfl

theorem execSingleToolCall_finalRows (env : Env) (ss : StreamSt) (tc : ToolCall) :
    (stateOfPass (execSingleToolCall env ss tc).2).db.filter isFinalRow
      = ss.loop.db.filter isFinalRow := by
  simp only [execSingleToolCall]
  rcases htq : ss.loop.toolQueue with _ | ⟨outcome, queue'⟩
  · simp [stateOfPass]
  · rcases hart : artifactFor env (runToolOutcome outcome).1 with _ | content
    · simp [stateOfPass, hart, save_tool_call_to_db, isFinalRow, List.filter_append]
    · simp [stateOfPass, hart, save_tool_call_to_db,
        save_assistant_structured_message_to_db, isFinalRow, List.filter_append]

theorem dispatchStop_db_of_empty (env : Env) (ss : StreamSt)
    (hfc : ss.full_content = "") :
    (stateOfPass (dispatchStop env ss).2).db = ss.loop.db := by
  have hstrip : pyStrip ss.full_content = "" := by rw [hfc]; rfl
  simp only [dispatchStop, hstrip]
  split
  · split <;> rfl
  · simp only [beq_self_eq_true, if_true]
    split <;> rfl

theorem dispatchOtherFinish_db (env : Env) (ss : StreamSt) :
    (stateOfPass (dispatchOtherFinish env ss).2).db = ss.loop.db := by
  simp only [dispatchOtherFinish]
  split
  · split <;> rfl
  · rfl

theorem dispatchRound_finalRows_of_empty (env : Env) (ss : StreamSt)
    (hfc : ss.full_content = "") :
    (stateOfPass (dispatchRound env ss).2).db.filter isFinalRow
      = ss.loop.db.filter isFinalRow := by
  simp only [dispatchRound]
  split
  · rcases hb : ss.buffer with _ | ⟨tc, rest⟩
    · simp [stateOfPass]
    · by_cases hr : rest.isEmpty = true
      · simp only [hr, if_true]
        exact execSingleToolCall_finalRows env ss tc
      · simp only [if_neg hr]
        split <;> rfl
  · split
    · rw [dispatchStop_db_of_empty env ss hfc]
    · rw [dispatchOtherFinish_db env ss]

/-- C4: no assistant-final row is ever written while the reply guard is
engaged.  For every pass that begins with `ready_to_reply_guard = true`,
the persisted store's assistant-final rows (role `assistant` with
`model_id` set, i.e. the `\x7btype:"assistant_final", final, progress\x7d`
payload of `save_assistant_message_to_db`) are exactly those already
present before the pass: streaming under the guard diverts all text away
from `full_content`, so the `stop` dispatch can only take a retry path
or the `awaiting_more_actions` path, and tool execution appends only
tool-call, tool and artifact rows. -/
theorem C4_no_final_while_guarded (env : Env) (st : LoopState) (round : List Chunk)
    (hg : st.ready_to_reply_guard = true) :
    (stateOfPass (runPass env st round).2).db.filter isFinalRow
      = st.db.filter isFinalRow := by
  unfold runPass
  rcases hsr : streamRound st round with ⟨evs, res⟩
  cases res with
  | error msg => simp [stateOfPass]
  | ok ss2 =>
    have hok := streamRound_ok st round evs ss2 hsr
    have hdb : ss2.loop.db = st.db := hok.1.2.2.2.2.2.1
    have hfc : ss2.full_content = "" := hok.2 hg
    simp only
    rw [← hdb]
    exact dispatchRound_finalRows_of_empty env ss2 hfc

/-- A guard-engaged fixture state for instantiating C4. -/
def C4guardSt : LoopState := { demoLoop with ready_to_reply_guard := true }

/-- A fixture round that streams text and stops. -/
def C4round : List Chunk := [⟨some "working on it", [], some "stop"⟩]

/-- C4 (witness): concrete instantiation at the guard-engaged fixture. -/
theorem C4_witness :
    C4guardSt.ready_to_reply_guard = true ∧
    (stateOfPass (runPass demoEnv C4guardSt C4round).2).db.filter isFinalRow
      = C4guardSt.db.filter isFinalRow :=
  ⟨by decide, C4_no_final_while_guarded demoEnv C4guardSt C4round (by decide)⟩

theorem isContentEv_not_terminal (e : Event) (h : isContentEv e = true) :
    isTerminalEv e = false := by
  cases e <;> simp_all [isContentEv, isTerminalEv, isDoneEv, isErrorEv]

theorem execSingleToolCall_cases (env : Env) (ss : StreamSt) (tc : ToolCall) :
    (∀ e ∈ (execSingleToolCall env ss tc).1, isTerminalEv e = false) ∧
    ((∃ st', (execSingleToolCall env ss tc).2 = PassResult.cont st') ∨
     (∃ st', (execSingleToolCall env ss tc).2 = PassResult.noScript st')) := by
  simp only [execSingleToolCall]
  rcases ss.loop.toolQueue with _ | ⟨outcome, queue'⟩
  · refine ⟨?_, Or.inr ⟨_, rfl⟩⟩
    intro e he
    simp only [List.mem_cons, List.not_mem_nil, or_false] at he
    rcases he with rfl | rfl | rfl <;> rfl
  · refine ⟨?_, Or.inl ⟨_, rfl⟩⟩
    intro e he
    simp only [List.mem_cons, List.not_mem_nil, or_false] at he
    rcases he with rfl | rfl | rfl | rfl <;> rfl

theorem dispatchStop_cases (env : Env) (ss : StreamSt) :
    (∃ evs st', dispatchStop env ss = (evs, PassResult.cont st') ∧
        ∀ e ∈ evs, isTerminalEv e = false) ∨
    (∃ c m st' msg, dispatchStop env ss = ([Event.error c m], PassResult.raised st' msg)) ∨
    (∃ i st', dispatchStop env ss =
        ([Event.contentDone false, Event.done i env.sessionId ss.loop.iteration],
         PassResult.brk st') ∧ st'.iteration = ss.loop.iteration) := by
  simp only [dispatchStop]
  split
  · split
    · exact Or.inr (Or.inl ⟨_, _, _, _, rfl⟩)
    · refine Or.inl ⟨_, _, rfl, ?_⟩
      intro e he
      simp only [List.mem_cons, List.not_mem_nil, or_false] at he
      subst he; rfl
  · split
    · split
      · exact Or.inr (Or.inl ⟨_, _, _, _, rfl⟩)
      · refine Or.inl ⟨_, _, rfl, ?_⟩
        intro e he
        simp only [List.mem_cons, List.not_mem_nil, or_false] at he
        subst he; rfl
    · split
      · refine Or.inl ⟨_, _, rfl, ?_⟩
        intro e he
        simp only [List.mem_cons, List.not_mem_nil, or_false] at he
        subst he; rfl
      · exact Or.inr (Or.inr ⟨_, _, rfl, rfl⟩)

theorem dispatchOtherFinish_cases (env : Env) (ss : StreamSt) :
    (∃ evs st', dispatchOtherFinish env ss = (evs, PassResult.cont st') ∧
        ∀ e ∈ evs, isTerminalEv e = false) ∨
    (∃ c m st' msg, dispatchOtherFinish env ss = ([Event.error c m], PassResult.raised st' msg)) := by
  simp only [dispatchOtherFinish]
  split
  · split
    · exact Or.inr ⟨_, _, _, _, rfl⟩
    · refine Or.inl ⟨_, _, rfl, ?_⟩
      intro e he
      simp only [List.mem_cons, List.not_mem_nil, or_false] at he
      subst he; rfl
  · exact Or.inr ⟨_, _, _, _, rfl⟩

theorem dispatchRound_cases (env : Env) (ss : StreamSt) :
    (∃ evs st', dispatchRound env ss = (evs, PassResult.cont st') ∧
        ∀ e ∈ evs, isTerminalEv e = false) ∨
    (∃ c m st' msg, dispatchRound env ss = ([Event.error c m], PassResult.raised st' msg)) ∨
    (∃ i st', dispatchRound env ss =
        ([Event.contentDone false, Event.done i env.sessionId ss.loop.iteration],
         PassResult.brk st') ∧ st'.iteration = ss.loop.iteration) ∨
    (∃ evs st', dispatchRound env ss = (evs, PassResult.noScript st') ∧
        ∀ e ∈ evs, isTerminalEv e = false) := by
  simp only [dispatchRound]
  split
  · rcases hb : ss.buffer with _ | ⟨tc, rest⟩
    · refine Or.inl ⟨_, _, rfl, ?_⟩
      intro e he
      simp only [List.not_mem_nil] at he
    · by_cases hr : rest.isEmpty = true
      · simp only [hr, if_true]
        obtain ⟨hclean, hres⟩ := execSingleToolCall_cases env ss tc
        rcases hres with ⟨st', h⟩ | ⟨st', h⟩
        · exact Or.inl ⟨_, st', by rw [← h], hclean⟩
        · exact Or.inr (Or.inr (Or.inr ⟨_, st', by rw [← h], hclean⟩))
      · simp only [if_neg hr]
        split
        · exact Or.inr (Or.inl ⟨_, _, _, _, rfl⟩)
        · refine Or.inl ⟨_, _, rfl, ?_⟩
          intro e he
          simp only [List.mem_cons, List.not_mem_nil, or_false] at he
          subst he; rfl
  · split
    · rcases dispatchStop_cases env ss with ⟨evs, st', h, hc⟩ | ⟨c, m, st', msg, h⟩ | ⟨i, st', h, hit⟩
      · exact Or.inl ⟨evs, st', h, hc⟩
      · exact Or.inr (Or.inl ⟨c, m, st', msg, h⟩)
      · exact Or.inr (Or.inr (Or.inl ⟨i, st', h, hit⟩))
    · rcases dispatchOtherFinish_cases env ss with ⟨evs, st', h, hc⟩ | ⟨c, m, st', msg, h⟩
      · exact Or.inl ⟨evs, st', h, hc⟩
      · exact Or.inr (Or.inl ⟨c, m, st', msg, h⟩)

theorem runPass_cases (env : Env) (st : LoopState) (round : List Chunk) :
    (∃ evs st', runPass env st round = (evs, PassResult.cont st') ∧
        ∀ e ∈ evs, isTerminalEv e = false) ∨
    (∃ front evs2 st' msg, runPass env st round = (front ++ evs2, PassResult.raised st' msg) ∧
        (∀ e ∈ front, isTerminalEv e = false) ∧
        (evs2 = [] ∨ ∃ c m, evs2 = [Event.error c m])) ∨
    (∃ front i s it st', runPass env st round = (front ++ [Event.done i s it], PassResult.brk st') ∧
        (∀ e ∈ front, isTerminalEv e = false) ∧ st'.iteration = st.iteration) ∨
    (∃ evs st', runPass env st round = (evs, PassResult.noScript st') ∧
        ∀ e ∈ evs, isTerminalEv e = false) := by
  rcases hsr : streamRound st round with ⟨evs, res⟩
  have hstream : ∀ e ∈ evs, isTerminalEv e = false := by
    intro e he
    exact isContentEv_not_terminal e (streamRound_events st round e (by rw [hsr]; exact he))
  cases res with
  | error msg =>
    have hrp : runPass env st round =
        (Event.thinking :: evs, PassResult.raised { st with textual_calls_detected := [] } msg) := by
      unfold runPass
      rw [hsr]
    refine Or.inr (Or.inl ⟨Event.thinking :: evs, [],
      { st with textual_calls_detected := [] }, msg, ?_, ?_, Or.inl rfl⟩)
    · rw [hrp]
      simp
    · intro e he
      rcases List.mem_cons.mp he with rfl | he
      · rfl
      · exact hstream e he
  | ok ss2 =>
    have hrp : runPass env st round =
        (Event.thinking :: (evs ++ (dispatchRound env ss2).1), (dispatchRound env ss2).2) := by
      unfold runPass
      rw [hsr]
    have hag := streamRound_ok st round evs ss2 hsr
    have hiter : ss2.loop.iteration = st.iteration := hag.1.1
    have hfrontc : ∀ e ∈ Event.thinking :: evs, isTerminalEv e = false := by
      intro e he
      rcases List.mem_cons.mp he with rfl | he
      · rfl
      · exact hstream e he
    rcases dispatchRound_cases env ss2 with
      ⟨devs, st', hd, hdc⟩ | ⟨c, m, st', msg, hd⟩ | ⟨i, st', hd, hit⟩ | ⟨devs, st', hd, hdc⟩
    · refine Or.inl ⟨Event.thinking :: (evs ++ devs), st', by rw [hrp, hd], ?_⟩
      intro e he
      rcases List.mem_cons.mp he with rfl | he
      · rfl
      · rcases List.mem_append.mp he with h | h
        · exact hstream e h
        · exact hdc e h
    · refine Or.inr (Or.inl ⟨Event.thinking :: evs, [Event.error c m], st', msg, ?_, hfrontc,
        Or.inr ⟨c, m, rfl⟩⟩)
      rw [hrp, hd]
      rfl
    · refine Or.inr (Or.inr (Or.inl ⟨(Event.thinking :: evs) ++ [Event.contentDone false], i,
        env.sessionId, ss2.loop.iteration, st', ?_, ?_, hit.trans hiter⟩))
      · rw [hrp, hd]
        simp
      · intro e he
        rcases List.mem_append.mp he with h | h
        · exact hfrontc e h
        · simp only [List.mem_cons, List.not_mem_nil, or_false] at h
          subst h; rfl
    · refine Or.inr (Or.inr (Or.inr ⟨Event.thinking :: (evs ++ devs), st', by rw [hrp, hd], ?_⟩))
      intro e he
      rcases List.mem_cons.mp he with rfl | he
      · rfl
      · rcases List.mem_append.mp he with h | h
        · exact hstream e h
        · exact hdc e h

theorem runRounds_cases (env : Env) : ∀ (rounds : List (List Chunk)) (st : LoopState),
    (∃ front i s it stF, runRounds env st rounds = (front ++ [Event.done i s it], stF,
        RunOutcome.finished) ∧ ∀ e ∈ front, isTerminalEv e = false) ∨
    (∃ front c m stF, runRounds env st rounds = (front ++ [Event.error c m], stF,
        RunOutcome.finished) ∧ ∀ e ∈ front, isTerminalEv e = false) ∨
    (∃ front evs2 stF msg, runRounds env st rounds = (front ++ evs2, stF,
        RunOutcome.raised msg) ∧ (∀ e ∈ front, isTerminalEv e = false) ∧
        (evs2 = [] ∨ ∃ c m, evs2 = [Event.error c m])) ∨
    (∃ evs stF, runRounds env st rounds = (evs, stF, RunOutcome.outOfScript)) := by
  intro rounds
  induction rounds with
  | nil =>
    intro st
    by_cases hmax : st.iteration ≥ env.cfg.MAX_ITERATIONS
    · refine Or.inr (Or.inl ⟨[], "MAX_ITERATIONS_REACHED",
        "Reached maximum iterations (" ++ toString env.cfg.MAX_ITERATIONS ++
          "); aborting execution", st, ?_, ?_⟩)
      · unfold runRounds
        rw [if_pos hmax]
        rfl
      · intro e he
        simp at he
    · refine Or.inr (Or.inr (Or.inr ⟨[], st, ?_⟩))
      unfold runRounds
      rw [if_neg hmax]
  | cons round rest ih =>
    intro st
    by_cases hmax : st.iteration ≥ env.cfg.MAX_ITERATIONS
    · refine Or.inr (Or.inl ⟨[], "MAX_ITERATIONS_REACHED",
        "Reached maximum iterations (" ++ toString env.cfg.MAX_ITERATIONS ++
          "); aborting execution", st, ?_, ?_⟩)
      · unfold runRounds
        rw [if_pos hmax]
        rfl
      · intro e he
        simp at he
    · rcases runPass_cases env st round with
        ⟨pevs, st', hp, hpc⟩ | ⟨front, evs2, st', msg, hp, hfc, hsh⟩ |
        ⟨front, i, s, it, st', hp, hfc, hit⟩ | ⟨pevs, st', hp, hpc2⟩
      · have hrr : runRounds env st (round :: rest) =
            (pevs ++ (runRounds env st' rest).1, (runRounds env st' rest).2) := by
          conv_lhs => unfold runRounds
          rw [if_neg hmax, hp]
        rcases ih st' with ⟨f2, i, s, it, stF, h2, h2c⟩ | ⟨f2, c, m, stF, h2, h2c⟩ |
          ⟨f2, evs2, stF, msg, h2, h2c, h2s⟩ | ⟨evs2, stF, h2⟩
        · refine Or.inl ⟨pevs ++ f2, i, s, it, stF, ?_, ?_⟩
          · rw [hrr, h2, List.append_assoc]
          · intro e he
            rcases List.mem_append.mp he with h | h
            · exact hpc e h
            · exact h2c e h
        · refine Or.inr (Or.inl ⟨pevs ++ f2, c, m, stF, ?_, ?_⟩)
          · rw [hrr, h2, List.append_assoc]
          · intro e he
            rcases List.mem_append.mp he with h | h
            · exact hpc e h
            · exact h2c e h
        · refine Or.inr (Or.inr (Or.inl ⟨pevs ++ f2, evs2, stF, msg, ?_, ?_, h2s⟩))
          · rw [hrr, h2, List.append_assoc]
          · intro e he
            rcases List.mem_append.mp he with h | h
            · exact hpc e h
            · exact h2c e h
        · refine Or.inr (Or.inr (Or.inr ⟨pevs ++ evs2, stF, ?_⟩))
          rw [hrr, h2]
      · refine Or.inr (Or.inr (Or.inl ⟨front, evs2, st', msg, ?_, hfc, hsh⟩))
        unfold runRounds
        rw [if_neg hmax, hp]
      · have hmax2 : ¬ st'.iteration ≥ env.cfg.MAX_ITERATIONS := by
          rw [hit]
          exact hmax
        refine Or.inl ⟨front, i, s, it, st', ?_, hfc⟩
        unfold runRounds
        rw [if_neg hmax, hp]
        simp only [if_neg hmax2]
      · refine Or.inr (Or.inr (Or.inr ⟨pevs, st', ?_⟩))
        unfold runRounds
        rw [if_neg hmax, hp]

theorem run_agent_loop_eq (env : Env) (db0 : List DbMsg) (history0 : List HistMsg)
    (uc : List Json) (rounds : List (List Chunk)) (tools : List ToolOutcome) :
    ∃ st0, run_agent_loop env db0 history0 uc rounds tools =
      (Event.status "processing" :: (runRounds env st0 rounds).1,
       (runRounds env st0 rounds).2) :=
  ⟨_, rfl⟩

/-- C3 (counterexample): one run can deliver *two* error events: a
round finishing with the unrecognized reason `"length"` makes the loop
emit the fatal `UNEXPECTED_FINISH_REASON` error event and then raise,
and the HTTP wrapper catches the exception and emits a second,
`INTERNAL_ERROR`, error event on the same stream. -/
theorem C3_counterexample :
    countErrorEv (event_generator demoEnv [] [] demoUserContent
      [[⟨some "half", [], some "length"⟩]] []) = 2 ∧
    ((event_generator demoEnv [] [] demoUserContent
      [[⟨some "half", [], some "length"⟩]] []).filter isDoneEv).length = 0 := by
  constructor
  · decide
  · decide

/-- C3 (amended): every run that does not outrun its script ends in
exactly one terminal segment after which no events follow: either a
single `done` event, or a single `error` event (the iteration ceiling,
or an exception with no preceding fatal event), or a fatal `error`
event followed by the wrapper's `INTERNAL_ERROR` error event — so up to
*two* error events may be delivered; every event before the terminal
segment is neither `done` nor `error`. -/
theorem C3_terminal_segment (env : Env) (db0 : List DbMsg) (history0 : List HistMsg)
    (uc : List Json) (rounds : List (List Chunk)) (tools : List ToolOutcome)
    (h : (run_agent_loop env db0 history0 uc rounds tools).2.2 ≠ RunOutcome.outOfScript) :
    ∃ front rest, event_generator env db0 history0 uc rounds tools = front ++ rest ∧
      (∀ e ∈ front, isTerminalEv e = false) ∧
      ((∃ i s it, rest = [Event.done i s it]) ∨
       (∃ c m, rest = [Event.error c m]) ∨
       (∃ c m m2, rest = [Event.error c m, Event.error "INTERNAL_ERROR" m2])) := by
  obtain ⟨st0, heq⟩ := run_agent_loop_eq env db0 history0 uc rounds tools
  rcases runRounds_cases env rounds st0 with
    ⟨front, i, s, it, stF, h2, h2c⟩ | ⟨front, c, m, stF, h2, h2c⟩ |
    ⟨front, evs2, stF, msg, h2, h2c, h2s⟩ | ⟨evs, stF, h2⟩
  · refine ⟨Event.status "processing" :: front, [Event.done i s it], ?_, ?_,
      Or.inl ⟨i, s, it, rfl⟩⟩
    · unfold event_generator
      rw [heq, h2]
      rfl
    · intro e he
      rcases List.mem_cons.mp he with rfl | he
      · rfl
      · exact h2c e he
  · refine ⟨Event.status "processing" :: front, [Event.error c m], ?_, ?_,
      Or.inr (Or.inl ⟨c, m, rfl⟩)⟩
    · unfold event_generator
      rw [heq, h2]
      rfl
    · intro e he
      rcases List.mem_cons.mp he with rfl | he
      · rfl
      · exact h2c e he
  · rcases h2s with rfl | ⟨c, m, rfl⟩
    · refine ⟨Event.status "processing" :: front, [Event.error "INTERNAL_ERROR" msg], ?_, ?_,
        Or.inr (Or.inl ⟨"INTERNAL_ERROR", msg, rfl⟩)⟩
      · unfold event_generator
        rw [heq, h2]
        simp
      · intro e he
        rcases List.mem_cons.mp he with rfl | he
        · rfl
        · exact h2c e he
    · refine ⟨Event.status "processing" :: front,
        [Event.error c m, Event.error "INTERNAL_ERROR" msg], ?_, ?_,
        Or.inr (Or.inr ⟨c, m, msg, rfl⟩)⟩
      · unfold event_generator
        rw [heq, h2]
        simp
      · intro e he
        rcases List.mem_cons.mp he with rfl | he
        · rfl
        · exact h2c e he
  · rw [heq, h2] at h
    exact absurd rfl h

/-- A fixture round for the C3 witness: one streamed text chunk, `stop`. -/
def C3round : List Chunk := [⟨some "hi there", [], some "stop"⟩]

/-- C3 (witness): concrete single-text-round run, which ends with `done`. -/
theorem C3_witness :
    (run_agent_loop demoEnv [] [] demoUserContent [C3round] []).2.2 ≠ RunOutcome.outOfScript ∧
    (∃ front rest, event_generator demoEnv [] [] demoUserContent [C3round] [] = front ++ rest ∧
      (∀ e ∈ front, isTerminalEv e = false) ∧
      ((∃ i s it, rest = [Event.done i s it]) ∨
       (∃ c m, rest = [Event.error c m]) ∨
       (∃ c m m2, rest = [Event.error c m, Event.error "INTERNAL_ERROR" m2]))) :=
  ⟨by decide, C3_terminal_segment demoEnv [] [] demoUserContent [C3round] [] (by decide)⟩

/-- A scripted round whose delta carries two complete tool-call
fragments and finishes with `tool_calls`. -/
def twoCallsRound : List Chunk :=
  [⟨Option.none,
    [⟨0, some "a1", some ⟨some "get_current_time", some "\x7b\x7d"⟩⟩,
     ⟨1, some "a2", some ⟨some "get_current_time", some "\x7b\x7d"⟩⟩],
    some "tool_calls"⟩]

/-- A scripted round with a single complete tool-call fragment. -/
def oneCallRound : List Chunk :=
  [⟨Option.none,
    [⟨0, some "b1", some ⟨some "get_current_time", some "\x7b\x7d"⟩⟩],
    some "tool_calls"⟩]

/-- The C9 scenario: the multiple-tools budget is exhausted (3 retries),
then one single-tool round executes and resets the shared counter, and a
further multiple-tools round retries a fourth time. -/
def C9rounds : List (List Chunk) :=
  [twoCallsRound, twoCallsRound, twoCallsRound, oneCallRound, twoCallsRound]

/-- The single scripted tool outcome of the C9 scenario. -/
def C9tools : List ToolOutcome := [.returns (.obj [("success", .bool true)])]

/-- C9 (counterexample): a successful tool execution resets the shared
retry counter to zero, so a single run (one user turn) can emit more
`retry` events with reason `multiple_tools_called` than
`MAX_RETRY_ON_MULTIPLE_TOOLS`: three multiple-tool rounds use up the
budget of 3, a single-tool round executes and resets the counter, and a
fourth multiple-tool retry with the same reason is emitted. -/
theorem C9_counterexample :
    demoEnv.cfg.MAX_RETRY_ON_MULTIPLE_TOOLS = 3 ∧
    countRetryReason "multiple_tools_called"
      (run_agent_loop demoEnv [] [] demoUserContent C9rounds C9tools).1 = 4 :=
  ⟨rfl, by decide⟩

theorem countRetryAll_append (a b : List Event) :
    countRetryAll (a ++ b) = countRetryAll a + countRetryAll b := by
  simp [countRetryAll, List.filter_append]

theorem countRetryAll_zero (evs : List Event) (h : ∀ e ∈ evs, isRetryEv e = false) :
    countRetryAll evs = 0 := by
  induction evs with
  | nil => rfl
  | cons e rest ih =>
    have he : isRetryEv e = false := h e (List.mem_cons_self e rest)
    have ih2 := ih (fun x hx => h x (List.mem_cons_of_mem e hx))
    simp only [countRetryAll, List.filter_cons, he] at ih2 ⊢
    simpa using ih2

theorem countRetryAll_thinking_append (evs devs : List Event) (h1 : countRetryAll evs = 0) :
    countRetryAll (Event.thinking :: (evs ++ devs)) = countRetryAll devs := by
  have h2 : evs.filter isRetryEv = [] := List.length_eq_zero.mp h1
  simp [countRetryAll, List.filter_cons, List.filter_append, h2, isRetryEv]

theorem countRetryReason_le (reason : String) (evs : List Event) :
    countRetryReason reason evs ≤ countRetryAll evs := by
  induction evs with
  | nil => exact Nat.le_refl 0
  | cons e rest ih =>
    have key : isRetryReasonEv reason e = true → isRetryEv e = true := by
      cases e <;> simp [isRetryReasonEv, isRetryEv]
    simp only [countRetryReason, countRetryAll, List.filter_cons] at ih ⊢
    by_cases h1 : isRetryReasonEv reason e = true
    · rw [if_pos h1, if_pos (key h1)]
      simpa using Nat.succ_le_succ ih
    · rw [if_neg h1]
      by_cases h2 : isRetryEv e = true
      · rw [if_pos h2]
        simp only [List.length_cons]
        exact Nat.le_succ_of_le ih
      · rw [if_neg h2]
        exact ih

theorem execSingleToolCall_retry (env : Env) (ss : StreamSt) (tc : ToolCall)
    (h : ∀ e ∈ (execSingleToolCall env ss tc).1, isToolResultEv e = false) :
    countRetryAll (execSingleToolCall env ss tc).1 = 0 ∧
    ∀ st', (execSingleToolCall env ss tc).2 = PassResult.cont st' →
      st'.retry_count = ss.loop.retry_count := by
  revert h
  simp only [execSingleToolCall]
  rcases ss.loop.toolQueue with _ | ⟨outcome, queue'⟩
  · intro h
    refine ⟨rfl, ?_⟩
    intro st' heq
    simp at heq
  · intro h
    have hmem := h _ (List.mem_cons_of_mem _ (List.mem_cons_of_mem _
      (List.mem_cons_of_mem _ (List.mem_cons_self _ _))))
    simp [isToolResultEv] at hmem

theorem dispatchStop_retry (env : Env) (ss : StreamSt) :
    (countRetryAll (dispatchStop env ss).1 = 0 ∧
      ∀ st', (dispatchStop env ss).2 = PassResult.cont st' →
        st'.retry_count = ss.loop.retry_count) ∨
    (countRetryAll (dispatchStop env ss).1 = 1 ∧
      ss.loop.retry_count < env.cfg.MAX_RETRY_ON_MULTIPLE_TOOLS ∧
      ∀ st', (dispatchStop env ss).2 = PassResult.cont st' →
        st'.retry_count = ss.loop.retry_count + 1) := by
  simp only [dispatchStop]
  split
  · split
    · next hgt =>
      refine Or.inl ⟨rfl, ?_⟩
      intro st' heq
      simp at heq
    · next hng =>
      refine Or.inr ⟨rfl, by omega, ?_⟩
      intro st' heq
      cases heq
      rfl
  · split
    · split
      · next hgt =>
        refine Or.inl ⟨rfl, ?_⟩
        intro st' heq
        simp at heq
      · next hng =>
        refine Or.inr ⟨rfl, by omega, ?_⟩
        intro st' heq
        cases heq
        rfl
    · split
      · refine Or.inl ⟨rfl, ?_⟩
        intro st' heq
        cases heq
        rfl
      · refine Or.inl ⟨rfl, ?_⟩
        intro st' heq
        simp at heq

theorem dispatchOtherFinish_retry (env : Env) (ss : StreamSt) :
    (countRetryAll (dispatchOtherFinish env ss).1 = 0 ∧
      ∀ st', (dispatchOtherFinish env ss).2 = PassResult.cont st' →
        st'.retry_count = ss.loop.retry_count) ∨
    (countRetryAll (dispatchOtherFinish env ss).1 = 1 ∧
      ss.loop.retry_count < env.cfg.MAX_RETRY_ON_MULTIPLE_TOOLS ∧
      ∀ st', (dispatchOtherFinish env ss).2 = PassResult.cont st' →
        st'.retry_count = ss.loop.retry_count + 1) := by
  simp only [dispatchOtherFinish]
  split
  · split
    · next hgt =>
      refine Or.inl ⟨rfl, ?_⟩
      intro st' heq
      simp at heq
    · next hng =>
      refine Or.inr ⟨rfl, by omega, ?_⟩
      intro st' heq
      cases heq
      rfl
  · refine Or.inl ⟨rfl, ?_⟩
    intro st' heq
    simp at heq

theorem dispatchRound_retry (env : Env) (ss : StreamSt)
    (h : ∀ e ∈ (dispatchRound env ss).1, isToolResultEv e = false) :
    (countRetryAll (dispatchRound env ss).1 = 0 ∧
      ∀ st', (dispatchRound env ss).2 = PassResult.cont st' →
        st'.retry_count = ss.loop.retry_count) ∨
    (countRetryAll (dispatchRound env ss).1 = 1 ∧
      ss.loop.retry_count < env.cfg.MAX_RETRY_ON_MULTIPLE_TOOLS ∧
      ∀ st', (dispatchRound env ss).2 = PassResult.cont st' →
        st'.retry_count = ss.loop.retry_count + 1) := by
  revert h
  simp only [dispatchRound]
  split
  · rcases ss.buffer with _ | ⟨tc, rest⟩
    · intro h
      refine Or.inl ⟨rfl, ?_⟩
      intro st' heq
      cases heq
      rfl
    · by_cases hr : rest.isEmpty = true
      · simp only [hr, if_true]
        intro h
        exact Or.inl (execSingleToolCall_retry env ss tc h)
      · simp only [if_neg hr]
        split
        · next hge =>
          intro h
          refine Or.inl ⟨rfl, ?_⟩
          intro st' heq
          simp at heq
        · next hng =>
          intro h
          refine Or.inr ⟨rfl, by omega, ?_⟩
          intro st' heq
          cases heq
          rfl
  · split
    · intro h
      exact dispatchStop_retry env ss
    · intro h
      exact dispatchOtherFinish_retry env ss

theorem runPass_retry (env : Env) (st : LoopState) (round : List Chunk)
    (h : ∀ e ∈ (runPass env st round).1, isToolResultEv e = false) :
    (countRetryAll (runPass env st round).1 = 0 ∧
      ∀ st', (runPass env st round).2 = PassResult.cont st' →
        st'.retry_count = st.retry_count) ∨
    (countRetryAll (runPass env st round).1 = 1 ∧
      st.retry_count < env.cfg.MAX_RETRY_ON_MULTIPLE_TOOLS ∧
      ∀ st', (runPass env st round).2 = PassResult.cont st' →
        st'.retry_count = st.retry_count + 1) := by
  rcases hsr : streamRound st round with ⟨evs, res⟩
  have hstream0 : countRetryAll evs = 0 := by
    refine countRetryAll_zero evs (fun e he => ?_)
    have hc := streamRound_events st round e (by rw [hsr]; exact he)
    cases e <;> simp_all [isContentEv, isRetryEv]
  cases res with
  | error msg =>
    have hrp : runPass env st round =
        (Event.thinking :: evs,
         PassResult.raised { st with textual_calls_detected := [] } msg) := by
      unfold runPass
      rw [hsr]
    refine Or.inl ⟨?_, ?_⟩
    · rw [hrp]
      have h2 : evs.filter isRetryEv = [] := List.length_eq_zero.mp hstream0
      simp [countRetryAll, List.filter_cons, h2, isRetryEv]
    · intro st' heq
      rw [hrp] at heq
      simp at heq
  | ok ss2 =>
    have hrp : runPass env st round =
        (Event.thinking :: (evs ++ (dispatchRound env ss2).1), (dispatchRound env ss2).2) := by
      unfold runPass
      rw [hsr]
    have hag := streamRound_ok st round evs ss2 hsr
    have hrc : ss2.loop.retry_count = st.retry_count := hag.1.2.1
    have hd : ∀ e ∈ (dispatchRound env ss2).1, isToolResultEv e = false := by
      intro e he
      apply h
      rw [hrp]
      exact List.mem_cons_of_mem _ (List.mem_append_right _ he)
    rcases dispatchRound_retry env ss2 hd with ⟨hc0, hcont⟩ | ⟨hc1, hlt, hcont⟩
    · refine Or.inl ⟨?_, ?_⟩
      · rw [hrp]
        rw [countRetryAll_thinking_append _ _ hstream0]
        exact hc0
      · intro st' heq
        rw [hrp] at heq
        exact (hcont st' heq).trans hrc
    · refine Or.inr ⟨?_, ?_, ?_⟩
      · rw [hrp]
        rw [countRetryAll_thinking_append _ _ hstream0]
        exact hc1
      · rw [← hrc]
        exact hlt
      · intro st' heq
        rw [hrp] at heq
        rw [hcont st' heq, hrc]

theorem runRounds_retry (env : Env) : ∀ (rounds : List (List Chunk)) (st : LoopState),
    st.retry_count ≤ env.cfg.MAX_RETRY_ON_MULTIPLE_TOOLS →
    (∀ e ∈ (runRounds env st rounds).1, isToolResultEv e = false) →
    countRetryAll (runRounds env st rounds).1 + st.retry_count ≤
      env.cfg.MAX_RETRY_ON_MULTIPLE_TOOLS := by
  intro rounds
  induction rounds with
  | nil =>
    intro st hrc h
    by_cases hmax : st.iteration ≥ env.cfg.MAX_ITERATIONS
    · have hrr : runRounds env st [] = ([maxIterationsEvent env], st, RunOutcome.finished) := by
        unfold runRounds
        rw [if_pos hmax]
      rw [hrr]
      have hz : countRetryAll [maxIterationsEvent env] = 0 := rfl
      rw [hz]
      omega
    · have hrr : runRounds env st [] = ([], st, RunOutcome.outOfScript) := by
        unfold runRounds
        rw [if_neg hmax]
      rw [hrr]
      have hz : countRetryAll ([] : List Event) = 0 := rfl
      rw [hz]
      omega
  | cons round rest ih =>
    intro st hrc h
    by_cases hmax : st.iteration ≥ env.cfg.MAX_ITERATIONS
    · have hrr : runRounds env st (round :: rest) =
          ([maxIterationsEvent env], st, RunOutcome.finished) := by
        unfold runRounds
        rw [if_pos hmax]
      rw [hrr]
      have hz : countRetryAll [maxIterationsEvent env] = 0 := rfl
      rw [hz]
      omega
    · rcases hp : runPass env st round with ⟨pevs, pr⟩
      have hpr := runPass_retry env st round
      rw [hp] at hpr
      cases pr with
      | cont st' =>
        have hrr : runRounds env st (round :: rest) =
            (pevs ++ (runRounds env st' rest).1, (runRounds env st' rest).2) := by
          conv_lhs => unfold runRounds
          rw [if_neg hmax, hp]
        rw [hrr] at h ⊢
        have hpass : ∀ e ∈ pevs, isToolResultEv e = false := fun e he =>
          h e (List.mem_append_left _ he)
        have hrest : ∀ e ∈ (runRounds env st' rest).1, isToolResultEv e = false := fun e he =>
          h e (List.mem_append_right _ he)
        rcases hpr hpass with ⟨hc0, hcont⟩ | ⟨hc1, hlt, hcont⟩
        · have hc0' : countRetryAll pevs = 0 := hc0
          have hst' : st'.retry_count = st.retry_count := hcont st' rfl
          have hih := ih st' (by omega) hrest
          rw [countRetryAll_append]
          omega
        · have hc1' : countRetryAll pevs = 1 := hc1
          have hst' : st'.retry_count = st.retry_count + 1 := hcont st' rfl
          have hih := ih st' (by omega) hrest
          rw [countRetryAll_append]
          omega
      | brk st' =>
        by_cases hb : st'.iteration ≥ env.cfg.MAX_ITERATIONS
        · have hrr : runRounds env st (round :: rest) =
              (pevs ++ [maxIterationsEvent env], st', RunOutcome.finished) := by
            conv_lhs => unfold runRounds
            rw [if_neg hmax, hp]
            simp only [if_pos hb]
          rw [hrr] at h ⊢
          have hpass : ∀ e ∈ pevs, isToolResultEv e = false := fun e he =>
            h e (List.mem_append_left _ he)
          have hz : countRetryAll [maxIterationsEvent env] = 0 := rfl
          rw [countRetryAll_append, hz]
          rcases hpr hpass with ⟨hc0, _⟩ | ⟨hc1, hlt, _⟩
          · have hc0' : countRetryAll pevs = 0 := hc0
            omega
          · have hc1' : countRetryAll pevs = 1 := hc1
            omega
        · have hrr : runRounds env st (round :: rest) =
              (pevs, st', RunOutcome.finished) := by
            conv_lhs => unfold runRounds
            rw [if_neg hmax, hp]
            simp only [if_neg hb]
          rw [hrr] at h ⊢
          show countRetryAll pevs + st.retry_count ≤ env.cfg.MAX_RETRY_ON_MULTIPLE_TOOLS
          rcases hpr h with ⟨hc0, _⟩ | ⟨hc1, hlt, _⟩
          · have hc0' : countRetryAll pevs = 0 := hc0
            omega
          · have hc1' : countRetryAll pevs = 1 := hc1
            omega
      | raised st' msg =>
        have hrr : runRounds env st (round :: rest) =
            (pevs, st', RunOutcome.raised msg) := by
          conv_lhs => unfold runRounds
          rw [if_neg hmax, hp]
        rw [hrr] at h ⊢
        show countRetryAll pevs + st.retry_count ≤ env.cfg.MAX_RETRY_ON_MULTIPLE_TOOLS
        rcases hpr h with ⟨hc0, _⟩ | ⟨hc1, hlt, _⟩
        · have hc0' : countRetryAll pevs = 0 := hc0
          omega
        · have hc1' : countRetryAll pevs = 1 := hc1
          omega
      | noScript st' =>
        have hrr : runRounds env st (round :: rest) =
            (pevs, st', RunOutcome.outOfScript) := by
          conv_lhs => unfold runRounds
          rw [if_neg hmax, hp]
        rw [hrr] at h ⊢
        show countRetryAll pevs + st.retry_count ≤ env.cfg.MAX_RETRY_ON_MULTIPLE_TOOLS
        rcases hpr h with ⟨hc0, _⟩ | ⟨hc1, hlt, _⟩
        · have hc0' : countRetryAll pevs = 0 := hc0
          omega
        · have hc1' : countRetryAll pevs = 1 := hc1
          omega

/-- C9 (amended): the retry budget bounds retries only between
successful tool executions.  For every run segment that contains no
`tool_result` event (no tool executed, so the shared counter is never
reset), the number of `retry` events of any single reason — in fact of
all reasons combined — plus the starting value of the shared retry
counter never exceeds `MAX_RETRY_ON_MULTIPLE_TOOLS`.  Once a tool
executes, the counter resets to zero and the per-turn bound of the
original claim fails (see the counterexample). -/
theorem C9_retry_budget (env : Env) (rounds : List (List Chunk)) (st : LoopState)
    (reason : String)
    (hrc : st.retry_count ≤ env.cfg.MAX_RETRY_ON_MULTIPLE_TOOLS)
    (hnt : ∀ e ∈ (runRounds env st rounds).1, isToolResultEv e = false) :
    countRetryReason reason (runRounds env st rounds).1 + st.retry_count ≤
      env.cfg.MAX_RETRY_ON_MULTIPLE_TOOLS :=
  le_trans (Nat.add_le_add_right (countRetryReason_le reason _) _)
    (runRounds_retry env rounds st hrc hnt)

/-- A fixture round for the C9 witness: three multiple-tool rounds, no
tool ever executes, budget 3. -/
def C9witRounds : List (List Chunk) := [twoCallsRound, twoCallsRound, twoCallsRound]

/-- C9 (witness): concrete instantiation — three multiple-tool retries
within one toolless segment stay within the budget. -/
theorem C9_witness :
    demoLoop.retry_count ≤ demoEnv.cfg.MAX_RETRY_ON_MULTIPLE_TOOLS ∧
    (∀ e ∈ (runRounds demoEnv demoLoop C9witRounds).1, isToolResultEv e = false) ∧
    countRetryReason "multiple_tools_called" (runRounds demoEnv demoLoop C9witRounds).1 +
      demoLoop.retry_count ≤ demoEnv.cfg.MAX_RETRY_ON_MULTIPLE_TOOLS :=
  ⟨by decide, by decide,
   C9_retry_budget demoEnv C9witRounds demoLoop "multiple_tools_called" (by decide) (by decide)⟩

/-- C1 (witness): concrete instantiation of the amended theorem at the
guard-engaged fixture state and the text-then-stop round. -/
theorem C1_amended_witness :
    ∃ evs ss2,
      streamRound C1guardSt C1textRound = (evs, Except.ok ss2) ∧
      C1guardSt.ready_to_reply_guard = true ∧
      ss2.finish_reason = some "stop" ∧
      ss2.loop.textual_calls_detected = [] ∧
      C1guardSt.retry_count < demoEnv.cfg.MAX_RETRY_ON_MULTIPLE_TOOLS ∧
      ss2.full_content = "" ∧
      (∃ st', runPass demoEnv C1guardSt C1textRound =
          (Event.thinking :: (evs ++ [Event.retry "empty_content" (C1guardSt.retry_count + 1)
              demoEnv.cfg.MAX_RETRY_ON_MULTIPLE_TOOLS]),
           PassResult.cont st') ∧
        st'.db = C1guardSt.db ∧
        st'.force_reasoning_next = true ∧
        st'.iteration = C1guardSt.iteration ∧
        st'.ready_to_reply_guard = true ∧
        st'.progress_segments = C1guardSt.progress_segments ∧
        st'.progress_buffer = ss2.loop.progress_buffer) := by
  have hok : (match (streamRound C1guardSt C1textRound).2 with
      | Except.ok _ => true
      | Except.error _ => false) = true := by decide
  have hfin : (match (streamRound C1guardSt C1textRound).2 with
      | Except.ok s => s.finish_reason
      | Except.error _ => Option.none) = some "stop" := by decide
  have htxe : (match (streamRound C1guardSt C1textRound).2 with
      | Except.ok s => s.loop.textual_calls_detected.isEmpty
      | Except.error _ => false) = true := by decide
  rcases hsr : streamRound C1guardSt C1textRound with ⟨evs, res⟩
  rw [hsr] at hok hfin htxe
  cases res with
  | error msg => simp at hok
  | ok ss2 =>
    simp only at hfin htxe
    have htx : ss2.loop.textual_calls_detected = [] := by
      rcases hl : ss2.loop.textual_calls_detected with _ | ⟨a, b⟩
      · rfl
      · rw [hl] at htxe
        simp at htxe
    obtain ⟨hfc, hex⟩ :=
      C1_amended demoEnv C1guardSt C1textRound evs ss2 (by decide) hsr hfin htx (by decide)
    exact ⟨evs, ss2, rfl, by decide, hfin, htx, by decide, hfc, hex⟩

/-- C10 (witness): concrete instantiation of the amended theorem — a
gap-indexed fragment that carries a truthy id raises `IndexError`. -/
theorem C10_amended_witness :
    ([] : List ToolCall).length + 1 ≤ (⟨1, some "x", Option.none⟩ : ToolCallFrag).index ∧
    fragHasPayload ⟨1, some "x", Option.none⟩ = true ∧
    accumToolCallFrag [] ⟨1, some "x", Option.none⟩ = Except.error "list index out of range" :=
  ⟨by decide, by decide,
   (C10_amended.1 [] ⟨1, some "x", Option.none⟩ (by decide)).1 (by decide)⟩
